import Mathlib

/-!
Shallow embedding of the GitPulse core (gitpulse.py): the repository
locator `_find_repos`, the status extractor `_get_repo_status`, the
health scorer `_calculate_health`, and the scan aggregation loop of
`scan`.  External `git` invocations are modelled by an environment
record `GitEnv` holding the (already whitespace-stripped, per the
command runner) outcome of each query in the fixed query sequence.
Python string/int primitives used by the source are modelled
explicitly at the character-list level so that every definition is
executable and kernel-reducible.
-/

set_option maxRecDepth 8000

namespace GitPulse

-- ---------------------------------------------------------------------------
-- Python string / int primitives
-- ---------------------------------------------------------------------------

/-- Whitespace characters recognized by Python's `str.split()` / `str.strip()`
(ASCII part; the source only ever meets ASCII whitespace in query output). -/
def pyIsSpace (c : Char) : Bool :=
  c = ' ' ∨ c = '\t' ∨ c = '\n' ∨ c = '\r' ∨ c = '\x0b' ∨ c = '\x0c'

/-- Split a character list at every character satisfying `p`, keeping empty
groups (the behaviour of Python `str.split(sep)` for a one-character `sep`
when `p` tests equality with `sep`). -/
def splitListOnP (p : Char → Bool) : List Char → List (List Char)
  | [] => [[]]
  | c :: cs =>
    match splitListOnP p cs with
    | [] => [[]]
    | g :: gs => if p c then [] :: g :: gs else (c :: g) :: gs

/-- Python `s.split("\n")`: split on newline, keeping empty lines. -/
def pySplitLines (s : String) : List String :=
  (splitListOnP (fun c => c = '\n') s.data).map (fun l => { data := l })

/-- Python `s.split()` (no separator): split on whitespace runs, dropping
empty groups. -/
def pySplitWs (s : String) : List String :=
  ((splitListOnP pyIsSpace s.data).filter (fun l => l ≠ [])).map
    (fun l => { data := l })

/-- Find the first occurrence of `sep` inside a character list; return the
text before it and the text after it. -/
def splitOnceAux (sep : List Char) : List Char → Option (List Char × List Char)
  | [] => none
  | c :: cs =>
    if sep.isPrefixOf (c :: cs) then some ([], (c :: cs).drop sep.length)
    else
      match splitOnceAux sep cs with
      | some (pre, post) => some (c :: pre, post)
      | none => none

/-- Python `s.split(sep, 1)` for a non-empty `sep`: split at the first
occurrence of `sep` only, yielding one or two fields. -/
def pySplitOnce (s sep : String) : List String :=
  match splitOnceAux sep.data s.data with
  | some (pre, post) => [{ data := pre }, { data := post }]
  | none => [s]

/-- Python slicing `s[:n]`: the first `n` code points of the string. -/
def pyTake (s : String) (n : Nat) : String :=
  { data := s.data.take n }

/-- Numeric value of a decimal digit character. -/
def digitVal (c : Char) : Nat := c.toNat - '0'.toNat

/-- Parse the digit part of a Python integer literal: decimal digits with
single underscores allowed between digits (Python `int` grammar).  `acc` is
the value of the digits already consumed. -/
def pyDigits : List Char → Nat → Option Nat
  | [], acc => some acc
  | '_' :: c :: rest, acc =>
    if c.isDigit then pyDigits rest (acc * 10 + digitVal c) else none
  | ['_'], _ => none
  | c :: rest, acc =>
    if c.isDigit then pyDigits rest (acc * 10 + digitVal c) else none

/-- Python `str.strip()` at the character-list level: drop leading and
trailing whitespace. -/
def pyStrip (l : List Char) : List Char :=
  ((l.dropWhile pyIsSpace).reverse.dropWhile pyIsSpace).reverse

/-- Python `int(s)`: surrounding whitespace ignored, then an optional sign
followed by digits (underscores between digits allowed); `none` models a
raised `ValueError`. -/
def pyInt? (s : String) : Option Int :=
  match pyStrip s.data with
  | '+' :: c :: rest =>
    if c.isDigit then (pyDigits rest (digitVal c)).map Int.ofNat else none
  | '-' :: c :: rest =>
    if c.isDigit then (pyDigits rest (digitVal c)).map (fun n => -(Int.ofNat n))
    else none
  | c :: rest =>
    if c.isDigit then (pyDigits rest (digitVal c)).map Int.ofNat else none
  | [] => none

/-- Count of lines whose Python `strip()` is non-empty, i.e. lines holding a
non-whitespace character: the `len([x for x in stdout.split("\n") if
x.strip()])` pattern used for branch/tag/stash counts. -/
def countNonEmptyLines (s : String) : Int :=
  Int.ofNat
    (((splitListOnP (fun c => c = '\n') s.data).filter
      (fun l => l.any (fun c => ¬ pyIsSpace c))).length)

-- ---------------------------------------------------------------------------
-- Data model (dataclasses of gitpulse.py)
-- ---------------------------------------------------------------------------

/-- Outcome of one `_run_git` invocation: captured standard output and
standard error (both stripped) and the return code. -/
structure CmdResult where
  stdout : String
  stderr : String
  rc : Int
deriving Repr, DecidableEq

/-- The `RepoStatus` dataclass: detailed status of a single repository,
every field carrying its construction default. -/
structure RepoStatus where
  name : String
  path : String
  current_branch : String := ""
  staged_count : Int := 0
  modified_count : Int := 0
  untracked_count : Int := 0
  deleted_count : Int := 0
  conflict_count : Int := 0
  stash_count : Int := 0
  ahead : Int := 0
  behind : Int := 0
  has_remote : Bool := false
  remote_url : String := ""
  last_commit_date : String := ""
  last_commit_age_days : Int := 0
  last_commit_message : String := ""
  total_commits : Int := 0
  branch_count : Int := 0
  tag_count : Int := 0
  is_dirty : Bool := false
  is_detached : Bool := false
  health_score : Int := 100
  health_grade : String := "A"
  issues : List String := []
  error : String := ""
deriving Repr, DecidableEq

/-- Outcomes of the fixed battery of git queries `_get_repo_status` issues,
in source order.  Each field models what `_run_git` hands back for one
query. -/
structure GitEnv where
  revParseGitDir : CmdResult
  branchShowCurrent : CmdResult
  revParseShortHead : CmdResult
  statusPorcelain : CmdResult
  remoteV : CmdResult
  revListLeftRight : CmdResult
  logLast : CmdResult
  revListCount : CmdResult
  branchList : CmdResult
  tagList : CmdResult
  stashList : CmdResult
deriving Repr, DecidableEq

-- ---------------------------------------------------------------------------
-- Working-tree porcelain parsing (gitpulse.py lines 250-267)
-- ---------------------------------------------------------------------------

/-- Process one line of `git status --porcelain=v1` output: the loop body of
lines 252-267.  Lines shorter than two characters are ignored; otherwise the
first two characters `x`, `y` classify the path into the five counters. -/
def processStatusLine (s : RepoStatus) (line : String) : RepoStatus :=
  match line.data with
  | x :: y :: _ =>
    if x = '?' ∧ y = '?' then
      { s with untracked_count := s.untracked_count + 1 }
    else if x = 'U' ∨ y = 'U' ∨ (x = 'A' ∧ y = 'A') ∨ (x = 'D' ∧ y = 'D') then
      { s with conflict_count := s.conflict_count + 1 }
    else
      let s :=
        if x = 'A' ∨ x = 'M' ∨ x = 'R' ∨ x = 'C' then
          { s with staged_count := s.staged_count + 1 }
        else s
      let s :=
        if x = 'D' then { s with deleted_count := s.deleted_count + 1 } else s
      let s :=
        if y = 'M' then { s with modified_count := s.modified_count + 1 } else s
      let s :=
        if y = 'D' then { s with deleted_count := s.deleted_count + 1 } else s
      s
  | _ => s

-- ---------------------------------------------------------------------------
-- Health scorer (gitpulse.py lines 359-446)
-- ---------------------------------------------------------------------------

/-- Grade from clamped score: lines 435-444. -/
def gradeOf (score : Int) : String :=
  if score ≥ 90 then "A"
  else if score ≥ 80 then "B"
  else if score ≥ 70 then "C"
  else if score ≥ 60 then "D"
  else "F"

/-- The `_calculate_health` pure function: sequential penalty deductions and
issue appends in source order, one final clamp at zero, then the grade.
Returns `(score, grade, issues)`. -/
def calculateHealth (s : RepoStatus) : Int × String × List String :=
  let score : Int := 100
  let issues : List String := []
  let score := if !s.has_remote then score - 15 else score
  let issues :=
    if !s.has_remote then issues ++ ["No remote configured"] else issues
  let score :=
    if 0 < s.staged_count ∨ 0 < s.modified_count then score - 10 else score
  let issues :=
    if 0 < s.staged_count ∨ 0 < s.modified_count then
      issues ++
        [toString (s.staged_count + s.modified_count) ++
          " uncommitted change(s)"]
    else issues
  let score := if 0 < s.untracked_count then score - 5 else score
  let issues :=
    if 0 < s.untracked_count then
      issues ++ [toString s.untracked_count ++ " untracked file(s)"]
    else issues
  let score := if 0 < s.deleted_count then score - 5 else score
  let issues :=
    if 0 < s.deleted_count then
      issues ++ [toString s.deleted_count ++ " deleted file(s)"]
    else issues
  let score := if 0 < s.behind then score - 10 else score
  let issues :=
    if 0 < s.behind then
      issues ++ [toString s.behind ++ " commit(s) behind remote"]
    else issues
  let score := if 0 < s.ahead ∧ 5 < s.ahead then score - 5 else score
  let issues :=
    if 0 < s.ahead ∧ 5 < s.ahead then
      issues ++ [toString s.ahead ++ " unpushed commit(s)"]
    else issues
  let score :=
    if 90 < s.last_commit_age_days then score - 20
    else if 30 < s.last_commit_age_days then score - 10
    else score
  let issues :=
    if 90 < s.last_commit_age_days then
      issues ++
        ["Very stale: " ++ toString s.last_commit_age_days ++
          " days since last commit"]
    else if 30 < s.last_commit_age_days then
      issues ++
        ["Stale: " ++ toString s.last_commit_age_days ++
          " days since last commit"]
    else issues
  let score := if s.is_detached then score - 5 else score
  let issues :=
    if s.is_detached then issues ++ ["Detached HEAD state"] else issues
  let score := if 0 < s.conflict_count then score - 20 else score
  let issues :=
    if 0 < s.conflict_count then
      issues ++ [toString s.conflict_count ++ " merge conflict(s)"]
    else issues
  let score := if s.total_commits = 0 then score - 30 else score
  let issues :=
    if s.total_commits = 0 then issues ++ ["No commits yet"] else issues
  let score := if 0 < s.stash_count then score - 3 else score
  let issues :=
    if 0 < s.stash_count then
      issues ++ [toString s.stash_count ++ " stash(es) pending"]
    else issues
  let score := max 0 score
  (score, gradeOf score, issues)

-- ---------------------------------------------------------------------------
-- Status extractor (gitpulse.py lines 213-357), as a sequence of steps
-- ---------------------------------------------------------------------------

/-- Current-branch resolution (lines 236-247): symbolic branch name if
available, otherwise a detached-HEAD display string, otherwise
"(unknown)". -/
def branchStep (env : GitEnv) (s : RepoStatus) : RepoStatus :=
  if env.branchShowCurrent.rc = 0 ∧ env.branchShowCurrent.stdout ≠ "" then
    { s with current_branch := env.branchShowCurrent.stdout }
  else if env.revParseShortHead.rc = 0 then
    { s with
        current_branch :=
          "(detached at " ++ env.revParseShortHead.stdout ++ ")",
        is_detached := true }
  else
    { s with current_branch := "(unknown)" }

/-- Working-tree scan (lines 249-267): fold the porcelain line classifier
over the output lines when the query succeeded with non-empty output. -/
def porcelainStep (env : GitEnv) (s : RepoStatus) : RepoStatus :=
  if env.statusPorcelain.rc = 0 ∧ env.statusPorcelain.stdout ≠ "" then
    (pySplitLines env.statusPorcelain.stdout).foldl processStatusLine s
  else s

/-- Derivation of `is_dirty` from the five counters (lines 269-275). -/
def dirtyStep (s : RepoStatus) : RepoStatus :=
  { s with
      is_dirty :=
        decide
          (0 < s.staged_count ∨ 0 < s.modified_count ∨
            0 < s.untracked_count ∨ 0 < s.deleted_count ∨
            0 < s.conflict_count) }

/-- Remote presence and URL of the first remote's first field
(lines 277-287). -/
def remoteStep (env : GitEnv) (s : RepoStatus) : RepoStatus :=
  if env.remoteV.rc = 0 ∧ env.remoteV.stdout ≠ "" then
    let s := { s with has_remote := true }
    match pySplitLines env.remoteV.stdout with
    | [] => s
    | l0 :: _ =>
      match pySplitWs l0 with
      | _ :: url :: _ => { s with remote_url := url }
      | _ => s
  else { s with has_remote := false }

/-- Ahead/behind query (lines 289-302): only issued when a remote exists and
HEAD is attached; the left count is assigned to `behind` before the right
count is parsed, so a `ValueError` on the right field leaves `behind`
already updated (the `try` block assigns sequentially). -/
def aheadBehindStep (env : GitEnv) (s : RepoStatus) : RepoStatus :=
  if s.has_remote ∧ !s.is_detached then
    if env.revListLeftRight.rc = 0 ∧ env.revListLeftRight.stdout ≠ "" then
      match pySplitWs env.revListLeftRight.stdout with
      | [p0, p1] =>
        match pyInt? p0 with
        | none => s
        | some b =>
          match pyInt? p1 with
          | none => { s with behind := b }
          | some a => { s with behind := b, ahead := a }
      | _ => s
    else s
  else s

/-- Last-commit step (lines 304-321): split the log output at the first
"|||", record date and the subject truncated to 120 characters, and when the
date parses (`fromiso`, modelling `datetime.fromisoformat` with naive times
treated as UTC, yielding seconds since the epoch) set the age to the floor
of the elapsed duration in whole days, exactly `(now - commit_dt).days`. -/
def logStep (fromiso : String → Option Int) (now : Int) (env : GitEnv)
    (s : RepoStatus) : RepoStatus :=
  if env.logLast.rc = 0 ∧ env.logLast.stdout ≠ "" then
    match pySplitOnce env.logLast.stdout "|||" with
    | [d, m] =>
      let s :=
        { s with last_commit_date := d, last_commit_message := pyTake m 120 }
      match fromiso d with
      | some t =>
        { s with last_commit_age_days := Int.fdiv (now - t) 86400 }
      | none => s
    | _ => s
  else s

/-- Total-commit count (lines 323-329): `int(stdout)` on success,
unchanged on a `ValueError`. -/
def commitCountStep (env : GitEnv) (s : RepoStatus) : RepoStatus :=
  if env.revListCount.rc = 0 ∧ env.revListCount.stdout ≠ "" then
    match pyInt? env.revListCount.stdout with
    | some n => { s with total_commits := n }
    | none => s
  else s

/-- Branch count (lines 331-336): non-empty lines of the listing. -/
def branchCountStep (env : GitEnv) (s : RepoStatus) : RepoStatus :=
  if env.branchList.rc = 0 ∧ env.branchList.stdout ≠ "" then
    { s with branch_count := countNonEmptyLines env.branchList.stdout }
  else s

/-- Tag count (lines 338-343). -/
def tagCountStep (env : GitEnv) (s : RepoStatus) : RepoStatus :=
  if env.tagList.rc = 0 ∧ env.tagList.stdout ≠ "" then
    { s with tag_count := countNonEmptyLines env.tagList.stdout }
  else s

/-- Stash count (lines 345-350). -/
def stashCountStep (env : GitEnv) (s : RepoStatus) : RepoStatus :=
  if env.stashList.rc = 0 ∧ env.stashList.stdout ≠ "" then
    { s with stash_count := countNonEmptyLines env.stashList.stdout }
  else s

/-- Health scoring assignment (lines 352-355). -/
def healthStep (s : RepoStatus) : RepoStatus :=
  let h := calculateHealth s
  { s with health_score := h.1, health_grade := h.2.1, issues := h.2.2 }

/-- The extraction pipeline of `_get_repo_status` after a successful
validity check, before health scoring: the best-effort steps applied in
source order to a freshly constructed record. -/
def preHealth (fromiso : String → Option Int) (now : Int)
    (name path : String) (env : GitEnv) : RepoStatus :=
  stashCountStep env
    (tagCountStep env
      (branchCountStep env
        (commitCountStep env
          (logStep fromiso now env
            (aheadBehindStep env
              (remoteStep env
                (dirtyStep
                  (porcelainStep env
                    (branchStep env { name := name, path := path })))))))))

/-- The `_get_repo_status` extractor: the validity check either fails --
recording an error and forcing score 0 / grade "F" with every other field
left at its construction default -- or the fixed sequence of best-effort
steps runs in source order. -/
def getRepoStatus (fromiso : String → Option Int) (now : Int)
    (name path : String) (env : GitEnv) : RepoStatus :=
  if env.revParseGitDir.rc ≠ 0 then
    { name := name, path := path,
      error := "Not a valid git repo: " ++ env.revParseGitDir.stderr,
      health_score := 0,
      health_grade := "F" }
  else
    healthStep (preHealth fromiso now name path env)

/-- The age computation of the branch analyzer (`get_branches`,
lines 634-648): same elapsed-duration floor as the extractor, applied to a
branch's own last-commit query; 0 whenever the query fails, yields empty
output, or the date does not parse. -/
def branchLastCommitAge (fromiso : String → Option Int) (now : Int)
    (res : CmdResult) : Int :=
  if res.rc = 0 ∧ res.stdout ≠ "" then
    match fromiso res.stdout with
    | some t => Int.fdiv (now - t) 86400
    | none => 0
  else 0

-- ---------------------------------------------------------------------------
-- Scan aggregation (gitpulse.py lines 483-497)
-- ---------------------------------------------------------------------------

/-- Bucket counters of `ScanResult`: healthy, warning, critical, error. -/
structure ScanCounts where
  healthy_count : Nat := 0
  warning_count : Nat := 0
  critical_count : Nat := 0
  error_count : Nat := 0
deriving Repr, DecidableEq

/-- The classification chain of the scan loop (lines 490-497) applied to one
repository status. -/
def bucketStep (c : ScanCounts) (r : RepoStatus) : ScanCounts :=
  if r.error ≠ "" then { c with error_count := c.error_count + 1 }
  else if 80 ≤ r.health_score then
    { c with healthy_count := c.healthy_count + 1 }
  else if 60 ≤ r.health_score then
    { c with warning_count := c.warning_count + 1 }
  else { c with critical_count := c.critical_count + 1 }

/-- The scan loop's aggregation over the statuses of the located
repositories, starting from all-zero counters. -/
def scanCounts (rs : List RepoStatus) : ScanCounts :=
  rs.foldl bucketStep {}

-- ---------------------------------------------------------------------------
-- Spec-side restatement of the scoring table (spec section 4.4)
-- ---------------------------------------------------------------------------

/-- Total penalty of the section 4.4 table, one additive term per rule, the
stale / very-stale pair mutually exclusive.  This definition follows the
specification's words, to be compared against `calculateHealth`. -/
def penaltyTotal (s : RepoStatus) : Int :=
  (if !s.has_remote then 15 else 0) +
  (if 0 < s.staged_count ∨ 0 < s.modified_count then 10 else 0) +
  (if 0 < s.untracked_count then 5 else 0) +
  (if 0 < s.deleted_count then 5 else 0) +
  (if 0 < s.behind then 10 else 0) +
  (if 5 < s.ahead then 5 else 0) +
  (if 90 < s.last_commit_age_days then 20
   else if 30 < s.last_commit_age_days then 10 else 0) +
  (if s.is_detached then 5 else 0) +
  (if 0 < s.conflict_count then 20 else 0) +
  (if s.total_commits = 0 then 30 else 0) +
  (if 0 < s.stash_count then 3 else 0)

/-- Issue strings of the section 4.4 table in evaluation order, one optional
singleton per rule.  This definition follows the specification's words, to
be compared against `calculateHealth`. -/
def specIssues (s : RepoStatus) : List String :=
  (if !s.has_remote then ["No remote configured"] else []) ++
  (if 0 < s.staged_count ∨ 0 < s.modified_count then
    [toString (s.staged_count + s.modified_count) ++ " uncommitted change(s)"]
   else []) ++
  (if 0 < s.untracked_count then
    [toString s.untracked_count ++ " untracked file(s)"] else []) ++
  (if 0 < s.deleted_count then
    [toString s.deleted_count ++ " deleted file(s)"] else []) ++
  (if 0 < s.behind then
    [toString s.behind ++ " commit(s) behind remote"] else []) ++
  (if 5 < s.ahead then
    [toString s.ahead ++ " unpushed commit(s)"] else []) ++
  (if 90 < s.last_commit_age_days then
    ["Very stale: " ++ toString s.last_commit_age_days ++
      " days since last commit"]
   else if 30 < s.last_commit_age_days then
    ["Stale: " ++ toString s.last_commit_age_days ++
      " days since last commit"]
   else []) ++
  (if s.is_detached then ["Detached HEAD state"] else []) ++
  (if 0 < s.conflict_count then
    [toString s.conflict_count ++ " merge conflict(s)"] else []) ++
  (if s.total_commits = 0 then ["No commits yet"] else []) ++
  (if 0 < s.stash_count then
    [toString s.stash_count ++ " stash(es) pending"] else [])

-- ---------------------------------------------------------------------------
-- Repository locator (gitpulse.py lines 173-207)
-- ---------------------------------------------------------------------------

/-- Abstract view of one directory for the locator: its name, whether it
holds a `.git` marker directory, whether enumerating its entries succeeds
(`sorted(root.iterdir())` raising `PermissionError` / `OSError` is modelled
by `accessible := false`), and its subdirectories.  Plain files are
irrelevant to the walk (`entry.is_dir()` filters them) and are not
modelled. -/
inductive DirTree where
  | node (name : String) (hasGit : Bool) (accessible : Bool)
      (children : List DirTree)
deriving Repr

def DirTree.name : DirTree → String
  | .node n _ _ _ => n

def DirTree.hasGit : DirTree → Bool
  | .node _ g _ _ => g

def DirTree.accessible : DirTree → Bool
  | .node _ _ a _ => a

def DirTree.children : DirTree → List DirTree
  | .node _ _ _ c => c

/-- Lexicographic comparison of character lists by code point, the order
Python uses to compare the path strings of sibling directories. -/
def charListLe : List Char → List Char → Bool
  | [], _ => true
  | _ :: _, [] => false
  | a :: as, b :: bs =>
    a.toNat < b.toNat || (a.toNat = b.toNat && charListLe as bs)

/-- Stable insertion of a directory into a name-sorted list. -/
def insertByName (c : DirTree) : List DirTree → List DirTree
  | [] => [c]
  | d :: ds =>
    if charListLe c.name.data d.name.data then c :: d :: ds
    else d :: insertByName c ds

/-- The `sorted(root.iterdir())` ordering restricted to sibling directories:
stable sort ascending by name. -/
def sortByName (l : List DirTree) : List DirTree :=
  l.foldr insertByName []

/-- The fixed skip-list of known non-project directory names
(lines 197-199). -/
def skipDirs : List String :=
  ["node_modules", "__pycache__", "venv", ".venv", "env", ".env", "vendor",
    "build", "dist", "target"]

/-- Python `name.startswith(".")`. -/
def startsWithDot (s : String) : Bool :=
  match s.data with
  | c :: _ => c = '.'
  | [] => false

theorem mem_insertByName {c a : DirTree} {l : List DirTree}
    (h : c ∈ insertByName a l) : c = a ∨ c ∈ l := by
  induction l with
  | nil => simpa [insertByName] using h
  | cons d ds ih =>
    simp only [insertByName] at h
    split at h
    · simpa using h
    · rcases List.mem_cons.mp h with h1 | h2
      · exact Or.inr (List.mem_cons.mpr (Or.inl h1))
      · rcases ih h2 with h3 | h4
        · exact Or.inl h3
        · exact Or.inr (List.mem_cons.mpr (Or.inr h4))

theorem mem_sortByName {c : DirTree} {l : List DirTree}
    (h : c ∈ sortByName l) : c ∈ l := by
  induction l with
  | nil => simp [sortByName] at h
  | cons d ds ih =>
    simp only [sortByName, List.foldr] at h
    rcases mem_insertByName h with h1 | h2
    · simp [h1]
    · exact List.mem_cons.mpr (Or.inr (ih h2))

/-- The `_find_repos` recursive walk.  `pathAcc` is the path of the parent
of `t` (the walk records `pathAcc ++ [t.name]` for a repository root),
`depth` the current depth, as in the source where the root starts at depth
0.  A directory holding the marker is recorded and never recursed into; an
enumeration failure contributes nothing; otherwise subdirectories are
visited in lexical order, skipping dot-prefixed and skip-listed names. -/
def findRepos (maxDepth : Nat) : DirTree → List String → Nat → List (List String)
  | .node nm git acc ch, pathAcc, depth =>
    if depth > maxDepth then []
    else if git then [pathAcc ++ [nm]]
    else if acc then
      (sortByName ch).attach.flatMap
        (fun c =>
          if startsWithDot c.1.name then []
          else if c.1.name ∈ skipDirs then []
          else findRepos maxDepth c.1 (pathAcc ++ [nm]) (depth + 1))
    else []
decreasing_by
  have h1 : c.1 ∈ ch := mem_sortByName c.2
  have h2 := List.sizeOf_lt_of_mem h1
  simp only [DirTree.node.sizeOf_spec]
  omega

-- ---------------------------------------------------------------------------
-- Scoring lemmas
-- ---------------------------------------------------------------------------

theorem ite_sub_flip {c : Prop} [Decidable c] (x p : Int) :
    (if c then x - p else x) = x - (if c then p else 0) := by
  split_ifs <;> omega

theorem ite_sub_flip2 {c : Prop} [Decidable c] (x p r : Int) :
    (if c then x - p else x - r) = x - (if c then p else r) := by
  split_ifs <;> rfl

theorem ite_app_flip {α : Type} {c : Prop} [Decidable c] (xs ys : List α) :
    (if c then xs ++ ys else xs) = xs ++ (if c then ys else []) := by
  split_ifs <;> simp

theorem ite_app_flip2 {α : Type} {c : Prop} [Decidable c]
    (xs ys zs : List α) :
    (if c then xs ++ ys else xs ++ zs) = xs ++ (if c then ys else zs) := by
  split_ifs <;> rfl

theorem ahead_cond_eq {α : Type} (a : Int) (x y : α) :
    (if 0 < a ∧ 5 < a then x else y) = if 5 < a then x else y := by
  by_cases h : 5 < a
  · have h0 : 0 < a := by omega
    simp [h, h0]
  · simp [h]

theorem calculateHealth_score_eq (s : RepoStatus) :
    (calculateHealth s).1 = max 0 (100 - penaltyTotal s) := by
  simp only [calculateHealth, penaltyTotal, ite_sub_flip, ite_sub_flip2,
    ahead_cond_eq]
  congr 1
  ring

theorem calculateHealth_issues_eq (s : RepoStatus) :
    (calculateHealth s).2.2 = specIssues s := by
  simp only [calculateHealth, specIssues, ite_app_flip, ite_app_flip2,
    ahead_cond_eq]
  simp [List.append_assoc]

theorem calculateHealth_grade_eq (s : RepoStatus) :
    (calculateHealth s).2.1 = gradeOf (calculateHealth s).1 := rfl

theorem ite_int_nonneg {c : Prop} [Decidable c] {p q : Int}
    (hp : 0 ≤ p) (hq : 0 ≤ q) : 0 ≤ if c then p else q := by
  split_ifs <;> assumption

theorem penaltyTotal_nonneg (s : RepoStatus) : 0 ≤ penaltyTotal s := by
  unfold penaltyTotal
  repeat' first
  | apply add_nonneg
  | apply ite_int_nonneg
  | omega

theorem gradeOf_char (sc : Int) :
    (gradeOf sc = "A" ↔ 90 ≤ sc) ∧
    (gradeOf sc = "B" ↔ 80 ≤ sc ∧ sc < 90) ∧
    (gradeOf sc = "C" ↔ 70 ≤ sc ∧ sc < 80) ∧
    (gradeOf sc = "D" ↔ 60 ≤ sc ∧ sc < 70) ∧
    (gradeOf sc = "F" ↔ sc < 60) := by
  unfold gradeOf
  split_ifs with h1 h2 h3 h4
  · exact ⟨iff_of_true rfl (by omega), iff_of_false (by decide) (by omega),
      iff_of_false (by decide) (by omega), iff_of_false (by decide) (by omega),
      iff_of_false (by decide) (by omega)⟩
  · exact ⟨iff_of_false (by decide) (by omega), iff_of_true rfl (by omega),
      iff_of_false (by decide) (by omega), iff_of_false (by decide) (by omega),
      iff_of_false (by decide) (by omega)⟩
  · exact ⟨iff_of_false (by decide) (by omega),
      iff_of_false (by decide) (by omega), iff_of_true rfl (by omega),
      iff_of_false (by decide) (by omega), iff_of_false (by decide) (by omega)⟩
  · exact ⟨iff_of_false (by decide) (by omega),
      iff_of_false (by decide) (by omega), iff_of_false (by decide) (by omega),
      iff_of_true rfl (by omega), iff_of_false (by decide) (by omega)⟩
  · exact ⟨iff_of_false (by decide) (by omega),
      iff_of_false (by decide) (by omega), iff_of_false (by decide) (by omega),
      iff_of_false (by decide) (by omega), iff_of_true rfl (by omega)⟩

/-- C1: the health scorer computes score = max(0, 100 − sum of the
penalties of the section 4.4 table) with the stale rules mutually
exclusive, appends exactly the triggered issue strings in evaluation
order, keeps the score within [0, 100], and grades by the A/B/C/D/F
boundaries at 90/80/70/60. -/
theorem health_scorer_spec (s : RepoStatus) :
    (calculateHealth s).1 = max 0 (100 - penaltyTotal s) ∧
    0 ≤ (calculateHealth s).1 ∧
    (calculateHealth s).1 ≤ 100 ∧
    (calculateHealth s).2.2 = specIssues s ∧
    ((calculateHealth s).2.1 = "A" ↔ 90 ≤ (calculateHealth s).1) ∧
    ((calculateHealth s).2.1 = "B" ↔
      80 ≤ (calculateHealth s).1 ∧ (calculateHealth s).1 < 90) ∧
    ((calculateHealth s).2.1 = "C" ↔
      70 ≤ (calculateHealth s).1 ∧ (calculateHealth s).1 < 80) ∧
    ((calculateHealth s).2.1 = "D" ↔
      60 ≤ (calculateHealth s).1 ∧ (calculateHealth s).1 < 70) ∧
    ((calculateHealth s).2.1 = "F" ↔ (calculateHealth s).1 < 60) := by
  have hs := calculateHealth_score_eq s
  have hp := penaltyTotal_nonneg s
  have hg := gradeOf_char ((calculateHealth s).1)
  refine ⟨hs, ?_, ?_, calculateHealth_issues_eq s, ?_, ?_, ?_, ?_, ?_⟩
  · rw [hs]; exact le_max_left 0 _
  · rw [hs]
    exact max_le_iff.mpr ⟨by norm_num, by omega⟩
  · rw [calculateHealth_grade_eq]; exact hg.1
  · rw [calculateHealth_grade_eq]; exact hg.2.1
  · rw [calculateHealth_grade_eq]; exact hg.2.2.1
  · rw [calculateHealth_grade_eq]; exact hg.2.2.2.1
  · rw [calculateHealth_grade_eq]; exact hg.2.2.2.2

-- ---------------------------------------------------------------------------
-- Porcelain classification lemmas
-- ---------------------------------------------------------------------------

/-- The untracked rule of the two-character classification. -/
abbrev untrackedRule (x y : Char) : Prop := x = '?' ∧ y = '?'

/-- The conflict rule of the two-character classification. -/
abbrev conflictRule (x y : Char) : Prop :=
  x = 'U' ∨ y = 'U' ∨ (x = 'A' ∧ y = 'A') ∨ (x = 'D' ∧ y = 'D')

theorem processStatusLine_char (s : RepoStatus) (x y : Char)
    (rest : List Char) :
    processStatusLine s { data := x :: y :: rest } =
      if x = '?' ∧ y = '?' then
        { s with untracked_count := s.untracked_count + 1 }
      else if x = 'U' ∨ y = 'U' ∨ (x = 'A' ∧ y = 'A') ∨
          (x = 'D' ∧ y = 'D') then
        { s with conflict_count := s.conflict_count + 1 }
      else
        { s with
            staged_count :=
              s.staged_count +
                (if x = 'A' ∨ x = 'M' ∨ x = 'R' ∨ x = 'C' then 1 else 0),
            modified_count :=
              s.modified_count + (if y = 'M' then 1 else 0),
            deleted_count :=
              s.deleted_count + (if x = 'D' then 1 else 0) +
                (if y = 'D' then 1 else 0) } := by
  simp only [processStatusLine]
  split_ifs <;> simp

/-- C2: per porcelain line with status characters `x`, `y`, each of the
five counters changes by exactly the delta the classification table
dictates: untracked on double question mark; else conflict on either `U`,
double `A` or double `D`; else staged for first character in {A,M,R,C},
deleted for first or second character `D`, and modified for second
character `M` -- the three latter families firing independently, so a
single path can raise a staged and a modified/deleted counter at once. -/
theorem porcelain_classification (s : RepoStatus) (x y : Char)
    (rest : List Char) :
    (processStatusLine s { data := x :: y :: rest }).untracked_count =
      s.untracked_count + (if untrackedRule x y then 1 else 0) ∧
    (processStatusLine s { data := x :: y :: rest }).conflict_count =
      s.conflict_count +
        (if ¬ untrackedRule x y ∧ conflictRule x y then 1 else 0) ∧
    (processStatusLine s { data := x :: y :: rest }).staged_count =
      s.staged_count +
        (if ¬ untrackedRule x y ∧ ¬ conflictRule x y ∧
            (x = 'A' ∨ x = 'M' ∨ x = 'R' ∨ x = 'C') then 1 else 0) ∧
    (processStatusLine s { data := x :: y :: rest }).modified_count =
      s.modified_count +
        (if ¬ untrackedRule x y ∧ ¬ conflictRule x y ∧ y = 'M' then 1
         else 0) ∧
    (processStatusLine s { data := x :: y :: rest }).deleted_count =
      s.deleted_count +
        (if ¬ untrackedRule x y ∧ ¬ conflictRule x y ∧ x = 'D' then 1
         else 0) +
        (if ¬ untrackedRule x y ∧ ¬ conflictRule x y ∧ y = 'D' then 1
         else 0) := by
  rw [processStatusLine_char]
  by_cases hu : untrackedRule x y
  · simp [hu]
  · by_cases hc : conflictRule x y
    · simp [hu, hc]
    · simp [hu, hc]

/-- C10: the porcelain parser is total and conservative: a line of fewer
than two characters leaves the status record untouched, and so does a
two-character line whose characters trigger none of the classification
rules. -/
theorem porcelain_no_rule_no_change (s : RepoStatus) (x y : Char)
    (rest : List Char) (line : String)
    (hshort : line.data.length < 2)
    (hu : ¬ untrackedRule x y) (hc : ¬ conflictRule x y)
    (hs : ¬ (x = 'A' ∨ x = 'M' ∨ x = 'R' ∨ x = 'C'))
    (hxd : x ≠ 'D') (hym : y ≠ 'M') (hyd : y ≠ 'D') :
    processStatusLine s line = s ∧
    processStatusLine s { data := x :: y :: rest } = s := by
  have hxu : x ≠ 'U' := fun h => hc (Or.inl h)
  have hyu : y ≠ 'U' := fun h => hc (Or.inr (Or.inl h))
  have hxa : x ≠ 'A' := fun h => hs (Or.inl h)
  have hxm : x ≠ 'M' := fun h => hs (Or.inr (Or.inl h))
  have hxr : x ≠ 'R' := fun h => hs (Or.inr (Or.inr (Or.inl h)))
  have hxc : x ≠ 'C' := fun h => hs (Or.inr (Or.inr (Or.inr h)))
  constructor
  · match hl : line.data with
    | [] => simp [processStatusLine, hl]
    | [c] => simp [processStatusLine, hl]
    | a :: b :: t =>
      exfalso
      rw [hl] at hshort
      simp only [List.length] at hshort
      omega
  · simp [processStatusLine, hu, hxu, hyu, hxa, hxm, hxr, hxc, hxd, hym, hyd]

-- ---------------------------------------------------------------------------
-- Projection lemmas: pushing record fields through conditionals
-- ---------------------------------------------------------------------------

@[simp] theorem error_ite (c : Prop) [Decidable c] (a b : RepoStatus) :
    (if c then a else b).error = if c then a.error else b.error :=
  apply_ite RepoStatus.error c a b

@[simp] theorem is_detached_ite (c : Prop) [Decidable c] (a b : RepoStatus) :
    (if c then a else b).is_detached =
      if c then a.is_detached else b.is_detached :=
  apply_ite RepoStatus.is_detached c a b

@[simp] theorem is_dirty_ite (c : Prop) [Decidable c] (a b : RepoStatus) :
    (if c then a else b).is_dirty = if c then a.is_dirty else b.is_dirty :=
  apply_ite RepoStatus.is_dirty c a b

@[simp] theorem staged_ite (c : Prop) [Decidable c] (a b : RepoStatus) :
    (if c then a else b).staged_count =
      if c then a.staged_count else b.staged_count :=
  apply_ite RepoStatus.staged_count c a b

@[simp] theorem modified_ite (c : Prop) [Decidable c] (a b : RepoStatus) :
    (if c then a else b).modified_count =
      if c then a.modified_count else b.modified_count :=
  apply_ite RepoStatus.modified_count c a b

@[simp] theorem untracked_ite (c : Prop) [Decidable c] (a b : RepoStatus) :
    (if c then a else b).untracked_count =
      if c then a.untracked_count else b.untracked_count :=
  apply_ite RepoStatus.untracked_count c a b

@[simp] theorem deleted_ite (c : Prop) [Decidable c] (a b : RepoStatus) :
    (if c then a else b).deleted_count =
      if c then a.deleted_count else b.deleted_count :=
  apply_ite RepoStatus.deleted_count c a b

@[simp] theorem conflict_ite (c : Prop) [Decidable c] (a b : RepoStatus) :
    (if c then a else b).conflict_count =
      if c then a.conflict_count else b.conflict_count :=
  apply_ite RepoStatus.conflict_count c a b

@[simp] theorem ahead_ite (c : Prop) [Decidable c] (a b : RepoStatus) :
    (if c then a else b).ahead = if c then a.ahead else b.ahead :=
  apply_ite RepoStatus.ahead c a b

@[simp] theorem behind_ite (c : Prop) [Decidable c] (a b : RepoStatus) :
    (if c then a else b).behind = if c then a.behind else b.behind :=
  apply_ite RepoStatus.behind c a b

@[simp] theorem age_ite (c : Prop) [Decidable c] (a b : RepoStatus) :
    (if c then a else b).last_commit_age_days =
      if c then a.last_commit_age_days else b.last_commit_age_days :=
  apply_ite RepoStatus.last_commit_age_days c a b

@[simp] theorem total_commits_ite (c : Prop) [Decidable c] (a b : RepoStatus) :
    (if c then a else b).total_commits =
      if c then a.total_commits else b.total_commits :=
  apply_ite RepoStatus.total_commits c a b

@[simp] theorem stash_ite (c : Prop) [Decidable c] (a b : RepoStatus) :
    (if c then a else b).stash_count =
      if c then a.stash_count else b.stash_count :=
  apply_ite RepoStatus.stash_count c a b

@[simp] theorem has_remote_ite (c : Prop) [Decidable c] (a b : RepoStatus) :
    (if c then a else b).has_remote =
      if c then a.has_remote else b.has_remote :=
  apply_ite RepoStatus.has_remote c a b

@[simp] theorem health_score_ite (c : Prop) [Decidable c] (a b : RepoStatus) :
    (if c then a else b).health_score =
      if c then a.health_score else b.health_score :=
  apply_ite RepoStatus.health_score c a b

@[simp] theorem health_grade_ite (c : Prop) [Decidable c] (a b : RepoStatus) :
    (if c then a else b).health_grade =
      if c then a.health_grade else b.health_grade :=
  apply_ite RepoStatus.health_grade c a b

@[simp] theorem issues_ite (c : Prop) [Decidable c] (a b : RepoStatus) :
    (if c then a else b).issues = if c then a.issues else b.issues :=
  apply_ite RepoStatus.issues c a b

-- ---------------------------------------------------------------------------
-- Porcelain fold: fields it never touches, and counter non-negativity
-- ---------------------------------------------------------------------------

theorem processStatusLine_keeps (s : RepoStatus) (line : String) :
    (processStatusLine s line).error = s.error ∧
    (processStatusLine s line).is_detached = s.is_detached ∧
    (processStatusLine s line).stash_count = s.stash_count ∧
    (processStatusLine s line).ahead = s.ahead ∧
    (processStatusLine s line).behind = s.behind ∧
    (processStatusLine s line).has_remote = s.has_remote ∧
    (processStatusLine s line).last_commit_age_days =
      s.last_commit_age_days ∧
    (processStatusLine s line).total_commits = s.total_commits ∧
    (processStatusLine s line).is_dirty = s.is_dirty := by
  obtain ⟨data⟩ := line
  match data with
  | [] => exact ⟨rfl, rfl, rfl, rfl, rfl, rfl, rfl, rfl, rfl⟩
  | [c] => exact ⟨rfl, rfl, rfl, rfl, rfl, rfl, rfl, rfl, rfl⟩
  | x :: y :: rest =>
    rw [processStatusLine_char]
    split_ifs <;> exact ⟨rfl, rfl, rfl, rfl, rfl, rfl, rfl, rfl, rfl⟩

theorem foldl_porcelain_keeps (ls : List String) (s : RepoStatus) :
    (ls.foldl processStatusLine s).error = s.error ∧
    (ls.foldl processStatusLine s).is_detached = s.is_detached ∧
    (ls.foldl processStatusLine s).stash_count = s.stash_count ∧
    (ls.foldl processStatusLine s).ahead = s.ahead ∧
    (ls.foldl processStatusLine s).behind = s.behind ∧
    (ls.foldl processStatusLine s).has_remote = s.has_remote ∧
    (ls.foldl processStatusLine s).last_commit_age_days =
      s.last_commit_age_days ∧
    (ls.foldl processStatusLine s).total_commits = s.total_commits ∧
    (ls.foldl processStatusLine s).is_dirty = s.is_dirty := by
  induction ls generalizing s with
  | nil => exact ⟨rfl, rfl, rfl, rfl, rfl, rfl, rfl, rfl, rfl⟩
  | cons l ls ih =>
    simp only [List.foldl]
    obtain ⟨h1, h2, h3, h4, h5, h6, h7, h8, h9⟩ :=
      processStatusLine_keeps s l
    obtain ⟨g1, g2, g3, g4, g5, g6, g7, g8, g9⟩ :=
      ih (processStatusLine s l)
    exact ⟨g1.trans h1, g2.trans h2, g3.trans h3, g4.trans h4, g5.trans h5,
      g6.trans h6, g7.trans h7, g8.trans h8, g9.trans h9⟩

theorem processStatusLine_nonneg (s : RepoStatus) (line : String)
    (h : 0 ≤ s.staged_count ∧ 0 ≤ s.modified_count ∧
      0 ≤ s.untracked_count ∧ 0 ≤ s.deleted_count ∧ 0 ≤ s.conflict_count) :
    0 ≤ (processStatusLine s line).staged_count ∧
    0 ≤ (processStatusLine s line).modified_count ∧
    0 ≤ (processStatusLine s line).untracked_count ∧
    0 ≤ (processStatusLine s line).deleted_count ∧
    0 ≤ (processStatusLine s line).conflict_count := by
  obtain ⟨h1, h2, h3, h4, h5⟩ := h
  obtain ⟨data⟩ := line
  match data with
  | [] => exact ⟨h1, h2, h3, h4, h5⟩
  | [c] => exact ⟨h1, h2, h3, h4, h5⟩
  | x :: y :: rest =>
    rw [processStatusLine_char]
    split_ifs <;> refine ⟨?_, ?_, ?_, ?_, ?_⟩ <;> simp <;> omega

theorem foldl_porcelain_nonneg (ls : List String) (s : RepoStatus)
    (h : 0 ≤ s.staged_count ∧ 0 ≤ s.modified_count ∧
      0 ≤ s.untracked_count ∧ 0 ≤ s.deleted_count ∧ 0 ≤ s.conflict_count) :
    0 ≤ (ls.foldl processStatusLine s).staged_count ∧
    0 ≤ (ls.foldl processStatusLine s).modified_count ∧
    0 ≤ (ls.foldl processStatusLine s).untracked_count ∧
    0 ≤ (ls.foldl processStatusLine s).deleted_count ∧
    0 ≤ (ls.foldl processStatusLine s).conflict_count := by
  induction ls generalizing s with
  | nil => exact h
  | cons l ls ih =>
    simp only [List.foldl]
    exact ih (processStatusLine s l) (processStatusLine_nonneg s l h)

/-- Closed witness for the porcelain totality theorem: the empty line and
the line with a blank first character and second character `A` leave a
fresh status record unchanged. -/
theorem porcelain_no_rule_no_change_witness :
    processStatusLine { name := "r", path := "p" } "" =
      { name := "r", path := "p" } ∧
    processStatusLine { name := "r", path := "p" } { data := [' ', 'A'] } =
      { name := "r", path := "p" } :=
  porcelain_no_rule_no_change { name := "r", path := "p" } ' ' 'A' [] ""
    (by decide) (by decide) (by decide) (by decide) (by decide) (by decide)
    (by decide)

-- ---------------------------------------------------------------------------
-- Record characterizations of the extractor steps holding a match
-- ---------------------------------------------------------------------------

theorem remoteStep_eq (env : GitEnv) (s : RepoStatus) :
    remoteStep env s =
      { s with
          has_remote := decide (env.remoteV.rc = 0 ∧ env.remoteV.stdout ≠ ""),
          remote_url :=
            if env.remoteV.rc = 0 ∧ env.remoteV.stdout ≠ "" then
              match pySplitLines env.remoteV.stdout with
              | [] => s.remote_url
              | l0 :: _ =>
                match pySplitWs l0 with
                | _ :: url :: _ => url
                | _ => s.remote_url
            else s.remote_url } := by
  unfold remoteStep
  by_cases h : env.remoteV.rc = 0 ∧ env.remoteV.stdout ≠ ""
  · simp only [if_pos h]
    rcases hl : pySplitLines env.remoteV.stdout with _ | ⟨l0, tl⟩
    · simp [hl, h]
    · rcases hw : pySplitWs l0 with _ | ⟨a, _ | ⟨url, t⟩⟩ <;>
        simp [hl, hw, h]
  · simp [if_neg h, h]

theorem aheadBehindStep_eq (env : GitEnv) (s : RepoStatus) :
    aheadBehindStep env s =
      { s with
          behind :=
            if s.has_remote ∧ !s.is_detached then
              if env.revListLeftRight.rc = 0 ∧
                  env.revListLeftRight.stdout ≠ "" then
                match pySplitWs env.revListLeftRight.stdout with
                | [p0, p1] =>
                  (match pyInt? p0 with
                   | some b => b
                   | none => s.behind)
                | _ => s.behind
              else s.behind
            else s.behind,
          ahead :=
            if s.has_remote ∧ !s.is_detached then
              if env.revListLeftRight.rc = 0 ∧
                  env.revListLeftRight.stdout ≠ "" then
                match pySplitWs env.revListLeftRight.stdout with
                | [p0, p1] =>
                  (match pyInt? p0 with
                   | some b =>
                     (match pyInt? p1 with
                      | some a => a
                      | none => s.ahead)
                   | none => s.ahead)
                | _ => s.ahead
              else s.ahead
            else s.ahead } := by
  unfold aheadBehindStep
  by_cases h1 : s.has_remote ∧ !s.is_detached
  · by_cases h2 : env.revListLeftRight.rc = 0 ∧
        env.revListLeftRight.stdout ≠ ""
    · simp only [if_pos h1, if_pos h2]
      rcases hw : pySplitWs env.revListLeftRight.stdout with
        _ | ⟨p0, _ | ⟨p1, _ | ⟨r, t⟩⟩⟩ <;> simp [hw]
      rcases hb : pyInt? p0 with _ | b <;> simp [hb]
      rcases ha : pyInt? p1 with _ | a <;> simp [ha]
    · simp [if_pos h1, if_neg h2]
  · have h1' : ¬(s.has_remote = true ∧ s.is_detached = false) := by
      simpa using h1
    simp [h1']

theorem logStep_keeps {α : Type} (fromiso : String → Option Int) (now : Int)
    (env : GitEnv) (s : RepoStatus) (f : RepoStatus → α)
    (hf : ∀ (r : RepoStatus) (d m : String) (a : Int),
      f ({ r with
            last_commit_date := d
            last_commit_message := m
            last_commit_age_days := a }) = f r) :
    f (logStep fromiso now env s) = f s := by
  unfold logStep
  by_cases h : env.logLast.rc = 0 ∧ env.logLast.stdout ≠ ""
  · simp only [if_pos h]
    rcases hl : pySplitOnce env.logLast.stdout "|||" with
      _ | ⟨d, _ | ⟨m, _ | ⟨r, t⟩⟩⟩ <;> simp only [hl] <;> try rfl
    rcases hi : fromiso d with _ | t0 <;> simp only [hi]
    · exact hf s d (pyTake m 120) s.last_commit_age_days
    · exact hf s d (pyTake m 120) (Int.fdiv (now - t0) 86400)
  · simp [if_neg h]

@[simp] theorem logStep_error (fromiso : String → Option Int) (now : Int)
    (env : GitEnv) (s : RepoStatus) :
    (logStep fromiso now env s).error = s.error :=
  logStep_keeps fromiso now env s RepoStatus.error (fun _ _ _ _ => rfl)

@[simp] theorem logStep_is_detached (fromiso : String → Option Int)
    (now : Int) (env : GitEnv) (s : RepoStatus) :
    (logStep fromiso now env s).is_detached = s.is_detached :=
  logStep_keeps fromiso now env s RepoStatus.is_detached (fun _ _ _ _ => rfl)

@[simp] theorem logStep_is_dirty (fromiso : String → Option Int) (now : Int)
    (env : GitEnv) (s : RepoStatus) :
    (logStep fromiso now env s).is_dirty = s.is_dirty :=
  logStep_keeps fromiso now env s RepoStatus.is_dirty (fun _ _ _ _ => rfl)

@[simp] theorem logStep_has_remote (fromiso : String → Option Int)
    (now : Int) (env : GitEnv) (s : RepoStatus) :
    (logStep fromiso now env s).has_remote = s.has_remote :=
  logStep_keeps fromiso now env s RepoStatus.has_remote (fun _ _ _ _ => rfl)

@[simp] theorem logStep_staged (fromiso : String → Option Int) (now : Int)
    (env : GitEnv) (s : RepoStatus) :
    (logStep fromiso now env s).staged_count = s.staged_count :=
  logStep_keeps fromiso now env s RepoStatus.staged_count (fun _ _ _ _ => rfl)

@[simp] theorem logStep_modified (fromiso : String → Option Int) (now : Int)
    (env : GitEnv) (s : RepoStatus) :
    (logStep fromiso now env s).modified_count = s.modified_count :=
  logStep_keeps fromiso now env s RepoStatus.modified_count
    (fun _ _ _ _ => rfl)

@[simp] theorem logStep_untracked (fromiso : String → Option Int)
    (now : Int) (env : GitEnv) (s : RepoStatus) :
    (logStep fromiso now env s).untracked_count = s.untracked_count :=
  logStep_keeps fromiso now env s RepoStatus.untracked_count
    (fun _ _ _ _ => rfl)

@[simp] theorem logStep_deleted (fromiso : String → Option Int) (now : Int)
    (env : GitEnv) (s : RepoStatus) :
    (logStep fromiso now env s).deleted_count = s.deleted_count :=
  logStep_keeps fromiso now env s RepoStatus.deleted_count
    (fun _ _ _ _ => rfl)

@[simp] theorem logStep_conflict (fromiso : String → Option Int) (now : Int)
    (env : GitEnv) (s : RepoStatus) :
    (logStep fromiso now env s).conflict_count = s.conflict_count :=
  logStep_keeps fromiso now env s RepoStatus.conflict_count
    (fun _ _ _ _ => rfl)

@[simp] theorem logStep_ahead (fromiso : String → Option Int) (now : Int)
    (env : GitEnv) (s : RepoStatus) :
    (logStep fromiso now env s).ahead = s.ahead :=
  logStep_keeps fromiso now env s RepoStatus.ahead (fun _ _ _ _ => rfl)

@[simp] theorem logStep_behind (fromiso : String → Option Int) (now : Int)
    (env : GitEnv) (s : RepoStatus) :
    (logStep fromiso now env s).behind = s.behind :=
  logStep_keeps fromiso now env s RepoStatus.behind (fun _ _ _ _ => rfl)

@[simp] theorem logStep_total (fromiso : String → Option Int) (now : Int)
    (env : GitEnv) (s : RepoStatus) :
    (logStep fromiso now env s).total_commits = s.total_commits :=
  logStep_keeps fromiso now env s RepoStatus.total_commits
    (fun _ _ _ _ => rfl)

@[simp] theorem logStep_stash (fromiso : String → Option Int) (now : Int)
    (env : GitEnv) (s : RepoStatus) :
    (logStep fromiso now env s).stash_count = s.stash_count :=
  logStep_keeps fromiso now env s RepoStatus.stash_count (fun _ _ _ _ => rfl)

theorem logStep_age (fromiso : String → Option Int) (now : Int)
    (env : GitEnv) (s : RepoStatus) :
    (logStep fromiso now env s).last_commit_age_days =
      if env.logLast.rc = 0 ∧ env.logLast.stdout ≠ "" then
        match pySplitOnce env.logLast.stdout "|||" with
        | [d, m] =>
          (match fromiso d with
           | some t => Int.fdiv (now - t) 86400
           | none => s.last_commit_age_days)
        | _ => s.last_commit_age_days
      else s.last_commit_age_days := by
  unfold logStep
  by_cases h : env.logLast.rc = 0 ∧ env.logLast.stdout ≠ ""
  · simp only [if_pos h]
    rcases hl : pySplitOnce env.logLast.stdout "|||" with
      _ | ⟨d, _ | ⟨m, _ | ⟨r, t⟩⟩⟩ <;> simp only [hl] <;> try rfl
    rcases hi : fromiso d with _ | t0 <;> simp only [hi] <;> rfl
  · simp [if_neg h]

@[simp] theorem fold_porcelain_error (ls : List String) (s : RepoStatus) :
    (ls.foldl processStatusLine s).error = s.error :=
  (foldl_porcelain_keeps ls s).1

@[simp] theorem fold_porcelain_is_detached (ls : List String)
    (s : RepoStatus) :
    (ls.foldl processStatusLine s).is_detached = s.is_detached :=
  (foldl_porcelain_keeps ls s).2.1

@[simp] theorem fold_porcelain_stash (ls : List String) (s : RepoStatus) :
    (ls.foldl processStatusLine s).stash_count = s.stash_count :=
  (foldl_porcelain_keeps ls s).2.2.1

@[simp] theorem fold_porcelain_ahead (ls : List String) (s : RepoStatus) :
    (ls.foldl processStatusLine s).ahead = s.ahead :=
  (foldl_porcelain_keeps ls s).2.2.2.1

@[simp] theorem fold_porcelain_behind (ls : List String) (s : RepoStatus) :
    (ls.foldl processStatusLine s).behind = s.behind :=
  (foldl_porcelain_keeps ls s).2.2.2.2.1

@[simp] theorem fold_porcelain_has_remote (ls : List String)
    (s : RepoStatus) :
    (ls.foldl processStatusLine s).has_remote = s.has_remote :=
  (foldl_porcelain_keeps ls s).2.2.2.2.2.1

@[simp] theorem fold_porcelain_age (ls : List String) (s : RepoStatus) :
    (ls.foldl processStatusLine s).last_commit_age_days =
      s.last_commit_age_days :=
  (foldl_porcelain_keeps ls s).2.2.2.2.2.2.1

@[simp] theorem fold_porcelain_total (ls : List String) (s : RepoStatus) :
    (ls.foldl processStatusLine s).total_commits = s.total_commits :=
  (foldl_porcelain_keeps ls s).2.2.2.2.2.2.2.1

@[simp] theorem fold_porcelain_is_dirty (ls : List String)
    (s : RepoStatus) :
    (ls.foldl processStatusLine s).is_dirty = s.is_dirty :=
  (foldl_porcelain_keeps ls s).2.2.2.2.2.2.2.2

theorem commitCountStep_eq (env : GitEnv) (s : RepoStatus) :
    commitCountStep env s =
      { s with
          total_commits :=
            if env.revListCount.rc = 0 ∧ env.revListCount.stdout ≠ "" then
              match pyInt? env.revListCount.stdout with
              | some n => n
              | none => s.total_commits
            else s.total_commits } := by
  unfold commitCountStep
  by_cases h : env.revListCount.rc = 0 ∧ env.revListCount.stdout ≠ ""
  · simp only [if_pos h]
    rcases hn : pyInt? env.revListCount.stdout with _ | n <;> simp [hn]
  · simp [if_neg h]

-- ---------------------------------------------------------------------------
-- Zero-penalty characterization of the scorer
-- ---------------------------------------------------------------------------

theorem ite_pos_eq_zero_iff {c : Prop} [Decidable c] {k : Int} (hk : 0 < k) :
    ((if c then k else 0) = 0 ↔ ¬ c) := by
  split_ifs with h <;> simp [h] <;> omega

theorem stale_pen_eq_zero_iff (a : Int) :
    ((if 90 < a then (20 : Int) else if 30 < a then 10 else 0) = 0 ↔
      a ≤ 30) := by
  split_ifs <;> omega

/-- The total section 4.4 penalty vanishes exactly when no rule fires. -/
theorem penaltyTotal_eq_zero_iff (s : RepoStatus) :
    penaltyTotal s = 0 ↔
      (s.has_remote = true ∧ s.staged_count ≤ 0 ∧ s.modified_count ≤ 0 ∧
        s.untracked_count ≤ 0 ∧ s.deleted_count ≤ 0 ∧ s.behind ≤ 0 ∧
        s.ahead ≤ 5 ∧ s.last_commit_age_days ≤ 30 ∧ s.is_detached = false ∧
        s.conflict_count ≤ 0 ∧ s.total_commits ≠ 0 ∧ s.stash_count ≤ 0) := by
  unfold penaltyTotal
  have n1 : 0 ≤ (if !s.has_remote then (15 : Int) else 0) :=
    ite_int_nonneg (by omega) le_rfl
  have n2 : 0 ≤
      (if 0 < s.staged_count ∨ 0 < s.modified_count then (10 : Int) else 0) :=
    ite_int_nonneg (by omega) le_rfl
  have n3 : 0 ≤ (if 0 < s.untracked_count then (5 : Int) else 0) :=
    ite_int_nonneg (by omega) le_rfl
  have n4 : 0 ≤ (if 0 < s.deleted_count then (5 : Int) else 0) :=
    ite_int_nonneg (by omega) le_rfl
  have n5 : 0 ≤ (if 0 < s.behind then (10 : Int) else 0) :=
    ite_int_nonneg (by omega) le_rfl
  have n6 : 0 ≤ (if 5 < s.ahead then (5 : Int) else 0) :=
    ite_int_nonneg (by omega) le_rfl
  have n7 : 0 ≤ (if 90 < s.last_commit_age_days then (20 : Int)
      else if 30 < s.last_commit_age_days then 10 else 0) :=
    ite_int_nonneg (by omega) (ite_int_nonneg (by omega) le_rfl)
  have n8 : 0 ≤ (if s.is_detached then (5 : Int) else 0) :=
    ite_int_nonneg (by omega) le_rfl
  have n9 : 0 ≤ (if 0 < s.conflict_count then (20 : Int) else 0) :=
    ite_int_nonneg (by omega) le_rfl
  have n10 : 0 ≤ (if s.total_commits = 0 then (30 : Int) else 0) :=
    ite_int_nonneg (by omega) le_rfl
  have n11 : 0 ≤ (if 0 < s.stash_count then (3 : Int) else 0) :=
    ite_int_nonneg (by omega) le_rfl
  constructor
  · intro h
    have e1 : (if !s.has_remote then (15 : Int) else 0) = 0 := by omega
    have e2 : (if 0 < s.staged_count ∨ 0 < s.modified_count then (10 : Int)
        else 0) = 0 := by omega
    have e3 : (if 0 < s.untracked_count then (5 : Int) else 0) = 0 := by
      omega
    have e4 : (if 0 < s.deleted_count then (5 : Int) else 0) = 0 := by omega
    have e5 : (if 0 < s.behind then (10 : Int) else 0) = 0 := by omega
    have e6 : (if 5 < s.ahead then (5 : Int) else 0) = 0 := by omega
    have e7 : (if 90 < s.last_commit_age_days then (20 : Int)
        else if 30 < s.last_commit_age_days then 10 else 0) = 0 := by omega
    have e8 : (if s.is_detached then (5 : Int) else 0) = 0 := by omega
    have e9 : (if 0 < s.conflict_count then (20 : Int) else 0) = 0 := by
      omega
    have e10 : (if s.total_commits = 0 then (30 : Int) else 0) = 0 := by
      omega
    have e11 : (if 0 < s.stash_count then (3 : Int) else 0) = 0 := by omega
    have c1 := (ite_pos_eq_zero_iff (by omega)).mp e1
    have c2 := (ite_pos_eq_zero_iff (by omega)).mp e2
    have c3 := (ite_pos_eq_zero_iff (by omega)).mp e3
    have c4 := (ite_pos_eq_zero_iff (by omega)).mp e4
    have c5 := (ite_pos_eq_zero_iff (by omega)).mp e5
    have c6 := (ite_pos_eq_zero_iff (by omega)).mp e6
    have c7 := (stale_pen_eq_zero_iff s.last_commit_age_days).mp e7
    have c8 := (ite_pos_eq_zero_iff (by omega)).mp e8
    have c9 := (ite_pos_eq_zero_iff (by omega)).mp e9
    have c10 := (ite_pos_eq_zero_iff (by omega)).mp e10
    have c11 := (ite_pos_eq_zero_iff (by omega)).mp e11
    push_neg at c2
    refine ⟨by simpa using c1, by omega, by omega, by omega, by omega,
      by omega, by omega, c7, by simpa using c8, by omega, c10, by omega⟩
  · rintro ⟨h1, h2, h3, h4, h5, h6, h7, h8, h9, h10, h11, h12⟩
    have e1 : (if !s.has_remote then (15 : Int) else 0) = 0 :=
      (ite_pos_eq_zero_iff (by omega)).mpr (by simp [h1])
    have e2 : (if 0 < s.staged_count ∨ 0 < s.modified_count then (10 : Int)
        else 0) = 0 :=
      (ite_pos_eq_zero_iff (by omega)).mpr (by push_neg; omega)
    have e3 : (if 0 < s.untracked_count then (5 : Int) else 0) = 0 :=
      (ite_pos_eq_zero_iff (by omega)).mpr (by omega)
    have e4 : (if 0 < s.deleted_count then (5 : Int) else 0) = 0 :=
      (ite_pos_eq_zero_iff (by omega)).mpr (by omega)
    have e5 : (if 0 < s.behind then (10 : Int) else 0) = 0 :=
      (ite_pos_eq_zero_iff (by omega)).mpr (by omega)
    have e6 : (if 5 < s.ahead then (5 : Int) else 0) = 0 :=
      (ite_pos_eq_zero_iff (by omega)).mpr (by omega)
    have e7 : (if 90 < s.last_commit_age_days then (20 : Int)
        else if 30 < s.last_commit_age_days then 10 else 0) = 0 :=
      (stale_pen_eq_zero_iff s.last_commit_age_days).mpr h8
    have e8 : (if s.is_detached then (5 : Int) else 0) = 0 :=
      (ite_pos_eq_zero_iff (by omega)).mpr (by simp [h9])
    have e9 : (if 0 < s.conflict_count then (20 : Int) else 0) = 0 :=
      (ite_pos_eq_zero_iff (by omega)).mpr (by omega)
    have e10 : (if s.total_commits = 0 then (30 : Int) else 0) = 0 :=
      (ite_pos_eq_zero_iff (by omega)).mpr h11
    have e11 : (if 0 < s.stash_count then (3 : Int) else 0) = 0 :=
      (ite_pos_eq_zero_iff (by omega)).mpr (by omega)
    omega

/-- A status record scores a perfect 100 with an empty issues list exactly
when no penalty rule of the section 4.4 table fires. -/
theorem perfect_conditions (s : RepoStatus) :
    ((calculateHealth s).1 = 100 ∧ (calculateHealth s).2.2 = []) ↔
      (s.has_remote = true ∧ s.staged_count ≤ 0 ∧ s.modified_count ≤ 0 ∧
        s.untracked_count ≤ 0 ∧ s.deleted_count ≤ 0 ∧ s.behind ≤ 0 ∧
        s.ahead ≤ 5 ∧ s.last_commit_age_days ≤ 30 ∧ s.is_detached = false ∧
        s.conflict_count ≤ 0 ∧ s.total_commits ≠ 0 ∧ s.stash_count ≤ 0) := by
  constructor
  · rintro ⟨hsc, _⟩
    rw [calculateHealth_score_eq] at hsc
    have hnn := penaltyTotal_nonneg s
    have hmc := max_choice 0 (100 - penaltyTotal s)
    have hp0 : penaltyTotal s = 0 := by omega
    exact (penaltyTotal_eq_zero_iff s).mp hp0
  · intro hC
    have hp0 : penaltyTotal s = 0 := (penaltyTotal_eq_zero_iff s).mpr hC
    obtain ⟨h1, h2, h3, h4, h5, h6, h7, h8, h9, h10, h11, h12⟩ := hC
    constructor
    · rw [calculateHealth_score_eq, hp0]
      decide
    · rw [calculateHealth_issues_eq]
      unfold specIssues
      have g1 : ¬ ((!s.has_remote) = true) := by simp [h1]
      have g2 : ¬ (0 < s.staged_count ∨ 0 < s.modified_count) := by
        push_neg
        omega
      have g9 : ¬ (s.is_detached = true) := by simp [h9]
      simp [g1, g2, g9, h11, show ¬ (0 < s.untracked_count) by omega,
        show ¬ (0 < s.deleted_count) by omega,
        show ¬ (0 < s.behind) by omega, show ¬ (5 < s.ahead) by omega,
        show ¬ (90 < s.last_commit_age_days) by omega,
        show ¬ (30 < s.last_commit_age_days) by omega,
        show ¬ (0 < s.conflict_count) by omega,
        show ¬ (0 < s.stash_count) by omega]

-- ---------------------------------------------------------------------------
-- Extractor pipeline facts
-- ---------------------------------------------------------------------------

@[simp] theorem branchStep_staged (env : GitEnv) (s : RepoStatus) :
    (branchStep env s).staged_count = s.staged_count := by
  simp [branchStep]

@[simp] theorem branchStep_modified (env : GitEnv) (s : RepoStatus) :
    (branchStep env s).modified_count = s.modified_count := by
  simp [branchStep]

@[simp] theorem branchStep_untracked (env : GitEnv) (s : RepoStatus) :
    (branchStep env s).untracked_count = s.untracked_count := by
  simp [branchStep]

@[simp] theorem branchStep_deleted (env : GitEnv) (s : RepoStatus) :
    (branchStep env s).deleted_count = s.deleted_count := by
  simp [branchStep]

@[simp] theorem branchStep_conflict (env : GitEnv) (s : RepoStatus) :
    (branchStep env s).conflict_count = s.conflict_count := by
  simp [branchStep]

@[simp] theorem branchStep_stash (env : GitEnv) (s : RepoStatus) :
    (branchStep env s).stash_count = s.stash_count := by
  simp [branchStep]

@[simp] theorem branchStep_ahead (env : GitEnv) (s : RepoStatus) :
    (branchStep env s).ahead = s.ahead := by
  simp [branchStep]

@[simp] theorem branchStep_behind (env : GitEnv) (s : RepoStatus) :
    (branchStep env s).behind = s.behind := by
  simp [branchStep]

@[simp] theorem branchStep_age (env : GitEnv) (s : RepoStatus) :
    (branchStep env s).last_commit_age_days = s.last_commit_age_days := by
  simp [branchStep]

@[simp] theorem branchStep_total (env : GitEnv) (s : RepoStatus) :
    (branchStep env s).total_commits = s.total_commits := by
  simp [branchStep]

@[simp] theorem branchStep_error (env : GitEnv) (s : RepoStatus) :
    (branchStep env s).error = s.error := by
  simp [branchStep]

@[simp] theorem branchStep_has_remote (env : GitEnv) (s : RepoStatus) :
    (branchStep env s).has_remote = s.has_remote := by
  simp [branchStep]

@[simp] theorem branchStep_is_dirty (env : GitEnv) (s : RepoStatus) :
    (branchStep env s).is_dirty = s.is_dirty := by
  simp [branchStep]

theorem preHealth_nonneg (fromiso : String → Option Int) (now : Int)
    (nm p : String) (env : GitEnv) :
    0 ≤ (preHealth fromiso now nm p env).staged_count ∧
    0 ≤ (preHealth fromiso now nm p env).modified_count ∧
    0 ≤ (preHealth fromiso now nm p env).untracked_count ∧
    0 ≤ (preHealth fromiso now nm p env).deleted_count ∧
    0 ≤ (preHealth fromiso now nm p env).conflict_count ∧
    0 ≤ (preHealth fromiso now nm p env).stash_count := by
  obtain ⟨q1, q2, q3, q4, q5⟩ :=
    foldl_porcelain_nonneg (pySplitLines env.statusPorcelain.stdout)
      (branchStep env { name := nm, path := p })
      (by refine ⟨?_, ?_, ?_, ?_, ?_⟩ <;> simp [branchStep])
  refine ⟨?_, ?_, ?_, ?_, ?_, ?_⟩ <;>
    simp [preHealth, stashCountStep, tagCountStep, branchCountStep,
      commitCountStep_eq, aheadBehindStep_eq, remoteStep_eq, dirtyStep,
      porcelainStep, countNonEmptyLines] <;>
    split_ifs <;>
    first
    | assumption
    | omega

-- ---------------------------------------------------------------------------
-- C5: is_dirty is exactly "some working-tree counter is positive"
-- ---------------------------------------------------------------------------

/-- C5: in every record the extractor produces, `is_dirty` holds exactly
when the five working-tree counters have a positive sum (equivalently, at
least one is nonzero, all being non-negative). -/
theorem extractor_is_dirty_iff (fromiso : String → Option Int) (now : Int)
    (nm p : String) (env : GitEnv) :
    (getRepoStatus fromiso now nm p env).is_dirty = true ↔
      0 < (getRepoStatus fromiso now nm p env).staged_count +
        (getRepoStatus fromiso now nm p env).modified_count +
        (getRepoStatus fromiso now nm p env).untracked_count +
        (getRepoStatus fromiso now nm p env).deleted_count +
        (getRepoStatus fromiso now nm p env).conflict_count := by
  unfold getRepoStatus
  by_cases h : env.revParseGitDir.rc ≠ 0
  · simp [h]
  · simp only [if_neg h]
    obtain ⟨q1, q2, q3, q4, q5⟩ :=
      foldl_porcelain_nonneg (pySplitLines env.statusPorcelain.stdout)
        (branchStep env { name := nm, path := p })
        (by refine ⟨?_, ?_, ?_, ?_, ?_⟩ <;> simp [branchStep])
    simp only [healthStep, preHealth]
    simp [stashCountStep, tagCountStep, branchCountStep, commitCountStep_eq,
      aheadBehindStep_eq, remoteStep_eq, dirtyStep, porcelainStep]
    split_ifs <;> constructor <;> intro hh <;> omega

-- ---------------------------------------------------------------------------
-- C8: the invalid-repository path
-- ---------------------------------------------------------------------------

/-- C8: the extractor's error field is non-empty exactly when the validity
check failed; on failure the returned record is precisely the fresh record
with the diagnostic error string, score forced to 0 and grade "F", every
other field at its construction default -- in particular the result
depends on no other query outcome. -/
theorem extractor_error_path (fromiso : String → Option Int) (now : Int)
    (nm p : String) (env : GitEnv) :
    ((getRepoStatus fromiso now nm p env).error ≠ "" ↔
      env.revParseGitDir.rc ≠ 0) ∧
    (env.revParseGitDir.rc ≠ 0 →
      getRepoStatus fromiso now nm p env =
        { name := nm, path := p,
          error := "Not a valid git repo: " ++ env.revParseGitDir.stderr,
          health_score := 0,
          health_grade := "F" }) := by
  have hne : ("Not a valid git repo: " ++ env.revParseGitDir.stderr) ≠ "" := by
    intro hc
    have h2 := congrArg String.data hc
    simp at h2
  constructor
  · unfold getRepoStatus
    by_cases h : env.revParseGitDir.rc ≠ 0
    · simp only [if_pos h]
      exact iff_of_true hne h
    · simp only [if_neg h]
      have herr : (healthStep (preHealth fromiso now nm p env)).error = "" := by
        simp [healthStep, preHealth, stashCountStep, tagCountStep,
          branchCountStep, commitCountStep_eq, aheadBehindStep_eq,
          remoteStep_eq, dirtyStep, porcelainStep]
      simp [herr, h]
  · intro h
    unfold getRepoStatus
    rw [if_pos h]

/-- Closed witness for the error-path theorem at a concrete failing
environment: validity return code 1, diagnostic "boom". -/
theorem extractor_error_path_witness :
    ((1 : Int) ≠ 0) ∧
    getRepoStatus (fun _ => none) 0 "r" "p"
        { revParseGitDir := { stdout := "", stderr := "boom", rc := 1 },
          branchShowCurrent := { stdout := "", stderr := "", rc := 0 },
          revParseShortHead := { stdout := "", stderr := "", rc := 0 },
          statusPorcelain := { stdout := "", stderr := "", rc := 0 },
          remoteV := { stdout := "", stderr := "", rc := 0 },
          revListLeftRight := { stdout := "", stderr := "", rc := 0 },
          logLast := { stdout := "", stderr := "", rc := 0 },
          revListCount := { stdout := "", stderr := "", rc := 0 },
          branchList := { stdout := "", stderr := "", rc := 0 },
          tagList := { stdout := "", stderr := "", rc := 0 },
          stashList := { stdout := "", stderr := "", rc := 0 } } =
      { name := "r", path := "p",
        error := "Not a valid git repo: boom",
        health_score := 0,
        health_grade := "F" } := by
  refine ⟨by decide, ?_⟩
  have h := (extractor_error_path (fun _ => none) 0 "r" "p"
    { revParseGitDir := { stdout := "", stderr := "boom", rc := 1 },
      branchShowCurrent := { stdout := "", stderr := "", rc := 0 },
      revParseShortHead := { stdout := "", stderr := "", rc := 0 },
      statusPorcelain := { stdout := "", stderr := "", rc := 0 },
      remoteV := { stdout := "", stderr := "", rc := 0 },
      revListLeftRight := { stdout := "", stderr := "", rc := 0 },
      logLast := { stdout := "", stderr := "", rc := 0 },
      revListCount := { stdout := "", stderr := "", rc := 0 },
      branchList := { stdout := "", stderr := "", rc := 0 },
      tagList := { stdout := "", stderr := "", rc := 0 },
      stashList := { stdout := "", stderr := "", rc := 0 } }).2 (by decide)
  simpa using h

-- ---------------------------------------------------------------------------
-- C3 (amended): the exact perfect-score characterization
-- ---------------------------------------------------------------------------

/-- C3 amended: an extracted record scores 100 with an empty issues list
exactly when it has a remote, a nonzero total commit count, age at most 30
days, is at most 0 behind and at most 5 ahead, clean working-tree counters,
an attached HEAD, and no stashes. -/
theorem extractor_perfect_iff (fromiso : String → Option Int) (now : Int)
    (nm p : String) (env : GitEnv) :
    ((getRepoStatus fromiso now nm p env).health_score = 100 ∧
      (getRepoStatus fromiso now nm p env).issues = []) ↔
      ((getRepoStatus fromiso now nm p env).has_remote = true ∧
        (getRepoStatus fromiso now nm p env).total_commits ≠ 0 ∧
        (getRepoStatus fromiso now nm p env).last_commit_age_days ≤ 30 ∧
        (getRepoStatus fromiso now nm p env).behind ≤ 0 ∧
        (getRepoStatus fromiso now nm p env).ahead ≤ 5 ∧
        (getRepoStatus fromiso now nm p env).staged_count = 0 ∧
        (getRepoStatus fromiso now nm p env).modified_count = 0 ∧
        (getRepoStatus fromiso now nm p env).untracked_count = 0 ∧
        (getRepoStatus fromiso now nm p env).deleted_count = 0 ∧
        (getRepoStatus fromiso now nm p env).conflict_count = 0 ∧
        (getRepoStatus fromiso now nm p env).is_detached = false ∧
        (getRepoStatus fromiso now nm p env).stash_count = 0) := by
  unfold getRepoStatus
  by_cases h : env.revParseGitDir.rc ≠ 0
  · simp [h]
  · simp only [if_neg h]
    have hperf := perfect_conditions (preHealth fromiso now nm p env)
    obtain ⟨n1, n2, n3, n4, n5, n6⟩ := preHealth_nonneg fromiso now nm p env
    simp only [healthStep]
    rw [hperf]
    constructor
    · rintro ⟨c1, c2, c3, c4, c5, c6, c7, c8, c9, c10, c11, c12⟩
      exact ⟨c1, c11, c8, c6, c7, by omega, by omega, by omega, by omega,
        by omega, c9, by omega⟩
    · rintro ⟨d1, d2, d3, d4, d5, d6, d7, d8, d9, d10, d11, d12⟩
      exact ⟨d1, by omega, by omega, by omega, by omega, d4, d5, d3, d11,
        by omega, d2, by omega⟩

/-- A date parser model mapping every string to the epoch instant: enough
for environments whose single log date stands for the current moment. -/
def isoZ : String → Option Int := fun _ => some 0

/-- Concrete environment: healthy repository with a remote whose branch is
one commit behind its upstream (`rev-list --left-right --count` output
"1<tab>0"). -/
def envBehind : GitEnv :=
  { revParseGitDir := { stdout := ".git", stderr := "", rc := 0 },
    branchShowCurrent := { stdout := "main", stderr := "", rc := 0 },
    revParseShortHead := { stdout := "", stderr := "", rc := 1 },
    statusPorcelain := { stdout := "", stderr := "", rc := 0 },
    remoteV := { stdout := "origin\tgit@example.com:r.git (fetch)",
                 stderr := "", rc := 0 },
    revListLeftRight := { stdout := "1\t0", stderr := "", rc := 0 },
    logLast := { stdout := "2026-01-01T00:00:00+00:00|||init",
                 stderr := "", rc := 0 },
    revListCount := { stdout := "5", stderr := "", rc := 0 },
    branchList := { stdout := "* main", stderr := "", rc := 0 },
    tagList := { stdout := "", stderr := "", rc := 0 },
    stashList := { stdout := "", stderr := "", rc := 0 } }

/-- Concrete environment: fully synced repository whose commit-count query
yields "-5" -- an integer the `int()` conversion accepts, escaping the
no-commits penalty while violating `total_commits > 0`. -/
def envNegCount : GitEnv :=
  { revParseGitDir := { stdout := ".git", stderr := "", rc := 0 },
    branchShowCurrent := { stdout := "main", stderr := "", rc := 0 },
    revParseShortHead := { stdout := "", stderr := "", rc := 1 },
    statusPorcelain := { stdout := "", stderr := "", rc := 0 },
    remoteV := { stdout := "origin\tgit@example.com:r.git (fetch)",
                 stderr := "", rc := 0 },
    revListLeftRight := { stdout := "0\t0", stderr := "", rc := 0 },
    logLast := { stdout := "2026-01-01T00:00:00+00:00|||init",
                 stderr := "", rc := 0 },
    revListCount := { stdout := "-5", stderr := "", rc := 0 },
    branchList := { stdout := "* main", stderr := "", rc := 0 },
    tagList := { stdout := "", stderr := "", rc := 0 },
    stashList := { stdout := "", stderr := "", rc := 0 } }

/-- Counterexample to C3 as stated.  First input: every condition the claim
lists (remote, positive commits, fresh, no dirty/conflict/detached/stash
state) holds, yet the score is 90, not 100 -- the claim omits the
behind/ahead conditions.  Second input: score 100 with empty issues, yet
`total_commits > 0` fails (the parsed count is -5) -- the code only
penalizes a count exactly zero. -/
theorem extractor_perfect_iff_cex :
    ((getRepoStatus isoZ 0 "r" "p" envBehind).has_remote = true ∧
      (getRepoStatus isoZ 0 "r" "p" envBehind).total_commits > 0 ∧
      (getRepoStatus isoZ 0 "r" "p" envBehind).last_commit_age_days ≤ 30 ∧
      (getRepoStatus isoZ 0 "r" "p" envBehind).staged_count = 0 ∧
      (getRepoStatus isoZ 0 "r" "p" envBehind).modified_count = 0 ∧
      (getRepoStatus isoZ 0 "r" "p" envBehind).untracked_count = 0 ∧
      (getRepoStatus isoZ 0 "r" "p" envBehind).deleted_count = 0 ∧
      (getRepoStatus isoZ 0 "r" "p" envBehind).conflict_count = 0 ∧
      (getRepoStatus isoZ 0 "r" "p" envBehind).is_detached = false ∧
      (getRepoStatus isoZ 0 "r" "p" envBehind).stash_count = 0 ∧
      (getRepoStatus isoZ 0 "r" "p" envBehind).health_score = 90 ∧
      (getRepoStatus isoZ 0 "r" "p" envBehind).issues =
        ["1 commit(s) behind remote"]) ∧
    ((getRepoStatus isoZ 0 "r" "p" envNegCount).health_score = 100 ∧
      (getRepoStatus isoZ 0 "r" "p" envNegCount).issues = [] ∧
      ¬ (getRepoStatus isoZ 0 "r" "p" envNegCount).total_commits > 0) := by
  decide

-- ---------------------------------------------------------------------------
-- C9: commit age as an elapsed-duration floor
-- ---------------------------------------------------------------------------

/-- C9 amended: whenever the log query succeeds and its date field parses,
the extractor's age is the floor of (now − commit time) in whole days --
non-negative whenever the commit does not postdate the current time -- and
the branch analyzer computes its per-branch age by the same formula. -/
theorem commit_age_floor (fromiso : String → Option Int) (now : Int)
    (nm p : String) (env : GitEnv) (t tb : Int) (d rest : String)
    (bres : CmdResult)
    (hval : env.revParseGitDir.rc = 0)
    (hok : env.logLast.rc = 0) (hne : env.logLast.stdout ≠ "")
    (hsplit : pySplitOnce env.logLast.stdout "|||" = [d, rest])
    (hiso : fromiso d = some t)
    (hbrc : bres.rc = 0) (hbne : bres.stdout ≠ "")
    (hbiso : fromiso bres.stdout = some tb) :
    (getRepoStatus fromiso now nm p env).last_commit_age_days =
      Int.fdiv (now - t) 86400 ∧
    (t ≤ now →
      0 ≤ (getRepoStatus fromiso now nm p env).last_commit_age_days) ∧
    branchLastCommitAge fromiso now bres = Int.fdiv (now - tb) 86400 ∧
    (tb ≤ now → 0 ≤ branchLastCommitAge fromiso now bres) := by
  have hmain : (getRepoStatus fromiso now nm p env).last_commit_age_days =
      Int.fdiv (now - t) 86400 := by
    unfold getRepoStatus
    rw [if_neg (by simp [hval])]
    simp only [healthStep]
    simp only [preHealth, stashCountStep, tagCountStep, branchCountStep,
      commitCountStep_eq, age_ite, ite_self]
    rw [logStep_age]
    simp [hok, hne, hsplit, hiso]
  have hbranch : branchLastCommitAge fromiso now bres =
      Int.fdiv (now - tb) 86400 := by
    unfold branchLastCommitAge
    simp [hbrc, hbne, hbiso]
  refine ⟨hmain, ?_, hbranch, ?_⟩
  · intro ht
    rw [hmain]
    exact Int.fdiv_nonneg (by omega) (by norm_num)
  · intro ht
    rw [hbranch]
    exact Int.fdiv_nonneg (by omega) (by norm_num)

/-- Closed witness for the age theorem: a commit at the epoch observed
three days later has age 3 in both the extractor and the branch
analyzer. -/
theorem commit_age_floor_witness :
    (getRepoStatus isoZ 259200 "r" "p" envBehind).last_commit_age_days =
      Int.fdiv (259200 - 0) 86400 ∧
    ((0 : Int) ≤ 259200 →
      0 ≤ (getRepoStatus isoZ 259200 "r" "p" envBehind).last_commit_age_days) ∧
    branchLastCommitAge isoZ 259200
        { stdout := "2026-01-01T00:00:00+00:00", stderr := "", rc := 0 } =
      Int.fdiv (259200 - 0) 86400 ∧
    ((0 : Int) ≤ 259200 →
      0 ≤ branchLastCommitAge isoZ 259200
        { stdout := "2026-01-01T00:00:00+00:00", stderr := "", rc := 0 }) :=
  commit_age_floor isoZ 259200 "r" "p" envBehind 0 0
    "2026-01-01T00:00:00+00:00" "init"
    { stdout := "2026-01-01T00:00:00+00:00", stderr := "", rc := 0 }
    (by decide) (by decide) (by decide) (by decide) (by decide) (by decide)
    (by decide) (by decide)

/-- A date parser model placing the commit two days after the epoch; with
"now" at the epoch the commit lies in the future. -/
def isoFuture : String → Option Int := fun _ => some 172800

/-- Counterexample to C9 as stated: a parseable commit timestamp two days
later than the current time yields age -2, a negative value, in both the
extractor and the branch analyzer -- the claim asserts the age is never
negative. -/
theorem commit_age_floor_cex :
    isoFuture "2026-01-01T00:00:00+00:00" = some 172800 ∧
    (getRepoStatus isoFuture 0 "r" "p" envBehind).last_commit_age_days =
      -2 ∧
    (getRepoStatus isoFuture 0 "r" "p" envBehind).last_commit_age_days <
      0 ∧
    branchLastCommitAge isoFuture 0
        { stdout := "2026-01-01T00:00:00+00:00", stderr := "", rc := 0 } =
      -2 := by
  decide

-- ---------------------------------------------------------------------------
-- C7: ahead/behind gating and parsing
-- ---------------------------------------------------------------------------

theorem aheadBehind_pair (env : GitEnv) (s : RepoStatus)
    (hb : s.behind = 0) (ha : s.ahead = 0) :
    ((aheadBehindStep env s).behind, (aheadBehindStep env s).ahead) =
      if s.has_remote = true ∧ s.is_detached = false then
        if env.revListLeftRight.rc = 0 ∧
            env.revListLeftRight.stdout ≠ "" then
          match pySplitWs env.revListLeftRight.stdout with
          | [p0, p1] =>
            (match pyInt? p0, pyInt? p1 with
             | some b, some a => (b, a)
             | some b, none => (b, 0)
             | _, _ => (0, 0))
          | _ => (0, 0)
        else (0, 0)
      else (0, 0) := by
  rw [aheadBehindStep_eq]
  by_cases h1 : s.has_remote = true ∧ s.is_detached = false
  · by_cases h2 : env.revListLeftRight.rc = 0 ∧
        env.revListLeftRight.stdout ≠ ""
    · simp only [h1, h2, if_pos, and_self, if_true, true_and,
        Bool.not_eq_true', h1.1, h1.2]
      rcases hw : pySplitWs env.revListLeftRight.stdout with
        _ | ⟨p0, _ | ⟨p1, _ | ⟨r, t⟩⟩⟩ <;>
        simp [hw, hb, ha, h1.1, h1.2, h2]
      rcases hv : pyInt? p0 with _ | b <;>
        rcases hu : pyInt? p1 with _ | a <;> simp [hv, hu, ha]
    · simp [h1.1, h1.2, h2, hb, ha]
  · have h1' : s.has_remote = false ∨ s.is_detached = true := by
      by_cases hr : s.has_remote = true
      · by_cases hd : s.is_detached = false
        · exact absurd ⟨hr, hd⟩ h1
        · exact Or.inr (by simpa using hd)
      · exact Or.inl (by simpa using hr)
    rcases h1' with hr | hd
    · simp [hr, hb, ha, h1]
    · simp [hd, hb, ha, h1]

/-- C7 amended: ahead/behind are computed only when a remote exists and
HEAD is attached (otherwise both are 0); the left field of the two-field
query output lands in `behind` and the right in `ahead`; a wrong field
count or an unparseable left field leaves both 0, and an unparseable right
field after a parseable left one leaves `behind` set with `ahead`
remaining 0 (the two assignments are sequential in the source's `try`
block). -/
theorem extractor_ahead_behind (fromiso : String → Option Int) (now : Int)
    (nm p : String) (env : GitEnv) :
    ((getRepoStatus fromiso now nm p env).behind,
      (getRepoStatus fromiso now nm p env).ahead) =
      if (getRepoStatus fromiso now nm p env).has_remote = true ∧
          (getRepoStatus fromiso now nm p env).is_detached = false then
        if env.revListLeftRight.rc = 0 ∧
            env.revListLeftRight.stdout ≠ "" then
          match pySplitWs env.revListLeftRight.stdout with
          | [p0, p1] =>
            (match pyInt? p0, pyInt? p1 with
             | some b, some a => (b, a)
             | some b, none => (b, 0)
             | _, _ => (0, 0))
          | _ => (0, 0)
        else (0, 0)
      else (0, 0) := by
  unfold getRepoStatus
  by_cases h : env.revParseGitDir.rc ≠ 0
  · simp [h]
  · simp only [if_neg h]
    have hR0 : (remoteStep env (dirtyStep (porcelainStep env
        (branchStep env { name := nm, path := p })))).behind = 0 := by
      simp [remoteStep_eq, dirtyStep, porcelainStep]
    have hA0 : (remoteStep env (dirtyStep (porcelainStep env
        (branchStep env { name := nm, path := p })))).ahead = 0 := by
      simp [remoteStep_eq, dirtyStep, porcelainStep]
    have e1 : (healthStep (preHealth fromiso now nm p env)).behind =
        (aheadBehindStep env (remoteStep env (dirtyStep (porcelainStep env
          (branchStep env { name := nm, path := p }))))).behind := by
      simp [healthStep, preHealth, stashCountStep, tagCountStep,
        branchCountStep, commitCountStep_eq]
    have e2 : (healthStep (preHealth fromiso now nm p env)).ahead =
        (aheadBehindStep env (remoteStep env (dirtyStep (porcelainStep env
          (branchStep env { name := nm, path := p }))))).ahead := by
      simp [healthStep, preHealth, stashCountStep, tagCountStep,
        branchCountStep, commitCountStep_eq]
    have e3 : (healthStep (preHealth fromiso now nm p env)).has_remote =
        (remoteStep env (dirtyStep (porcelainStep env
          (branchStep env { name := nm, path := p })))).has_remote := by
      simp [healthStep, preHealth, stashCountStep, tagCountStep,
        branchCountStep, commitCountStep_eq, aheadBehindStep_eq]
    have e4 : (healthStep (preHealth fromiso now nm p env)).is_detached =
        (remoteStep env (dirtyStep (porcelainStep env
          (branchStep env { name := nm, path := p })))).is_detached := by
      simp [healthStep, preHealth, stashCountStep, tagCountStep,
        branchCountStep, commitCountStep_eq, aheadBehindStep_eq,
        remoteStep_eq]
    rw [e1, e2, e3, e4]
    have h5 : (remoteStep env (dirtyStep (porcelainStep env
        (branchStep env { name := nm, path := p })))).is_detached =
        (aheadBehindStep env (remoteStep env (dirtyStep (porcelainStep env
          (branchStep env { name := nm, path := p }))))).is_detached := by
      rw [aheadBehindStep_eq]
    exact aheadBehind_pair env _ hR0 hA0

/-- A date parser model refusing every string. -/
def isoNone : String → Option Int := fun _ => none

/-- Concrete environment whose ahead/behind query returns "3 x": a
two-field output whose right field is not an integer. -/
def envHalfParse : GitEnv :=
  { revParseGitDir := { stdout := ".git", stderr := "", rc := 0 },
    branchShowCurrent := { stdout := "main", stderr := "", rc := 0 },
    revParseShortHead := { stdout := "", stderr := "", rc := 1 },
    statusPorcelain := { stdout := "", stderr := "", rc := 0 },
    remoteV := { stdout := "origin\tgit@example.com:r.git (fetch)",
                 stderr := "", rc := 0 },
    revListLeftRight := { stdout := "3 x", stderr := "", rc := 0 },
    logLast := { stdout := "", stderr := "", rc := 1 },
    revListCount := { stdout := "5", stderr := "", rc := 0 },
    branchList := { stdout := "* main", stderr := "", rc := 0 },
    tagList := { stdout := "", stderr := "", rc := 0 },
    stashList := { stdout := "", stderr := "", rc := 0 } }

/-- Counterexample to C7 as stated: on the two-field output "3 x" the
right field fails integer parsing, yet `behind` ends up 3, not 0 -- the
left assignment has already happened when the `ValueError` is raised, so
"on any parse failure both counters remain 0" is false. -/
theorem extractor_ahead_behind_cex :
    pySplitWs "3 x" = ["3", "x"] ∧
    pyInt? "x" = none ∧
    (getRepoStatus isoNone 0 "r" "p" envHalfParse).behind = 3 ∧
    (getRepoStatus isoNone 0 "r" "p" envHalfParse).ahead = 0 := by
  decide

-- ---------------------------------------------------------------------------
-- C4: scan bucket counters partition the repositories
-- ---------------------------------------------------------------------------

theorem bucketStep_counts (c : ScanCounts) (r : RepoStatus) :
    (bucketStep c r).healthy_count = c.healthy_count +
      (if r.error = "" ∧ 80 ≤ r.health_score then 1 else 0) ∧
    (bucketStep c r).warning_count = c.warning_count +
      (if r.error = "" ∧ 60 ≤ r.health_score ∧ r.health_score < 80 then 1
       else 0) ∧
    (bucketStep c r).critical_count = c.critical_count +
      (if r.error = "" ∧ r.health_score < 60 then 1 else 0) ∧
    (bucketStep c r).error_count = c.error_count +
      (if r.error ≠ "" then 1 else 0) := by
  unfold bucketStep
  split_ifs with h1 h2 h3 <;> refine ⟨?_, ?_, ?_, ?_⟩ <;> simp_all <;> omega

theorem scanCounts_go (rs : List RepoStatus) (c : ScanCounts) :
    (rs.foldl bucketStep c).healthy_count = c.healthy_count +
      rs.countP (fun r => decide (r.error = "" ∧ 80 ≤ r.health_score)) ∧
    (rs.foldl bucketStep c).warning_count = c.warning_count +
      rs.countP (fun r =>
        decide (r.error = "" ∧ 60 ≤ r.health_score ∧ r.health_score < 80)) ∧
    (rs.foldl bucketStep c).critical_count = c.critical_count +
      rs.countP (fun r => decide (r.error = "" ∧ r.health_score < 60)) ∧
    (rs.foldl bucketStep c).error_count = c.error_count +
      rs.countP (fun r => decide (r.error ≠ "")) := by
  induction rs generalizing c with
  | nil => simp
  | cons r rs ih =>
    simp only [List.foldl_cons, List.countP_cons]
    obtain ⟨i1, i2, i3, i4⟩ := ih (bucketStep c r)
    obtain ⟨b1, b2, b3, b4⟩ := bucketStep_counts c r
    by_cases he : r.error = "" <;> by_cases h80 : 80 ≤ r.health_score <;>
      by_cases h60 : 60 ≤ r.health_score <;>
      refine ⟨?_, ?_, ?_, ?_⟩ <;>
      simp only [i1, i2, i3, i4, b1, b2, b3, b4] <;>
      simp_all <;> omega

/-- C4: over any sequence of repository statuses -- the empty one included
-- each status lands in exactly one of the four scan buckets (error when
the error field is set, else healthy at score at least 80, warning in
[60, 80), critical below 60), and the four counters sum to the sequence
length, the scan's total_repos. -/
theorem scan_bucket_partition (rs : List RepoStatus) :
    (scanCounts rs).healthy_count =
      rs.countP (fun r => decide (r.error = "" ∧ 80 ≤ r.health_score)) ∧
    (scanCounts rs).warning_count =
      rs.countP (fun r =>
        decide (r.error = "" ∧ 60 ≤ r.health_score ∧ r.health_score < 80)) ∧
    (scanCounts rs).critical_count =
      rs.countP (fun r => decide (r.error = "" ∧ r.health_score < 60)) ∧
    (scanCounts rs).error_count =
      rs.countP (fun r => decide (r.error ≠ "")) ∧
    (scanCounts rs).healthy_count + (scanCounts rs).warning_count +
      (scanCounts rs).critical_count + (scanCounts rs).error_count =
      rs.length := by
  obtain ⟨g1, g2, g3, g4⟩ := scanCounts_go rs {}
  have z1 : (scanCounts rs).healthy_count =
      rs.countP (fun r => decide (r.error = "" ∧ 80 ≤ r.health_score)) := by
    simpa [scanCounts] using g1
  have z2 : (scanCounts rs).warning_count =
      rs.countP (fun r =>
        decide (r.error = "" ∧ 60 ≤ r.health_score ∧ r.health_score < 80)) := by
    simpa [scanCounts] using g2
  have z3 : (scanCounts rs).critical_count =
      rs.countP (fun r => decide (r.error = "" ∧ r.health_score < 60)) := by
    simpa [scanCounts] using g3
  have z4 : (scanCounts rs).error_count =
      rs.countP (fun r => decide (r.error ≠ "")) := by
    simpa [scanCounts] using g4
  refine ⟨z1, z2, z3, z4, ?_⟩
  rw [z1, z2, z3, z4]
  clear z1 z2 z3 z4 g1 g2 g3 g4
  induction rs with
  | nil => rfl
  | cons r rs ih =>
    simp only [List.countP_cons, List.length_cons]
    split_ifs <;> simp_all <;> omega

-- ---------------------------------------------------------------------------
-- C6: the repository locator
-- ---------------------------------------------------------------------------

theorem attach_flatMap {α β : Type} (l : List α) (g : α → List β) :
    (l.attach.flatMap fun c => g c.1) = l.flatMap g := by
  have h1 : (l.attach.map Subtype.val).flatMap g =
      l.attach.flatMap fun c => g c.1 := List.flatMap_map _ _ _
  rw [← h1, List.attach_map_subtype_val]

theorem findRepos_depth_gt (maxD d : Nat) (t : DirTree) (pa : List String)
    (h : maxD < d) : findRepos maxD t pa d = [] := by
  cases t
  simp [findRepos, h]

/-- The sibling order relation: lexical comparison of directory names. -/
def nameLe (a b : DirTree) : Prop := charListLe a.name.data b.name.data = true

theorem charListLe_total : ∀ a b : List Char,
    charListLe a b = true ∨ charListLe b a = true := by
  intro a
  induction a with
  | nil => intro b; left; rfl
  | cons x xs ih =>
    intro b
    cases b with
    | nil => right; rfl
    | cons y ys =>
      simp only [charListLe, Bool.or_eq_true, Bool.and_eq_true,
        decide_eq_true_eq]
      rcases Nat.lt_trichotomy x.toNat y.toNat with h | h | h
      · left; left; omega
      · rcases ih ys with h2 | h2
        · left; right; exact ⟨by omega, h2⟩
        · right; right; exact ⟨by omega, h2⟩
      · right; left; omega

theorem charListLe_trans : ∀ a b c : List Char,
    charListLe a b = true → charListLe b c = true →
    charListLe a c = true := by
  intro a
  induction a with
  | nil => intro b c _ _; rfl
  | cons x xs ih =>
    intro b c hab hbc
    cases b with
    | nil => cases hab
    | cons y ys =>
      cases c with
      | nil => cases hbc
      | cons z zs =>
        simp only [charListLe, Bool.or_eq_true, Bool.and_eq_true,
          decide_eq_true_eq] at hab hbc ⊢
        rcases hab with h1 | ⟨h1, h1t⟩ <;> rcases hbc with h2 | ⟨h2, h2t⟩
        · left; omega
        · left; omega
        · left; omega
        · right; exact ⟨by omega, ih ys zs h1t h2t⟩

theorem nameLe_total (a b : DirTree) : nameLe a b ∨ nameLe b a :=
  charListLe_total a.name.data b.name.data

theorem insertByName_perm (c : DirTree) (l : List DirTree) :
    (insertByName c l).Perm (c :: l) := by
  induction l with
  | nil => exact List.Perm.refl _
  | cons d ds ih =>
    simp only [insertByName]
    split_ifs
    · exact List.Perm.refl _
    · exact ((ih.cons d).trans (List.Perm.swap c d ds))

theorem sortByName_perm (l : List DirTree) : (sortByName l).Perm l := by
  induction l with
  | nil => exact List.Perm.refl _
  | cons a t ih =>
    simp only [sortByName, List.foldr]
    exact (insertByName_perm a _).trans (ih.cons a)

theorem insertByName_pairwise (c : DirTree) (l : List DirTree)
    (hl : l.Pairwise nameLe) : (insertByName c l).Pairwise nameLe := by
  induction l with
  | nil => simp [insertByName]
  | cons d ds ih =>
    simp only [insertByName]
    split_ifs with h
    · refine List.Pairwise.cons ?_ hl
      intro e he
      rcases List.mem_cons.mp he with he1 | he2
      · subst he1; exact h
      · have hde : nameLe d e := (List.pairwise_cons.mp hl).1 e he2
        exact charListLe_trans _ _ _ h hde
    · have hdc : nameLe d c := by
        rcases nameLe_total c d with h1 | h1
        · exact absurd h1 h
        · exact h1
      obtain ⟨hhead, htail⟩ := List.pairwise_cons.mp hl
      refine List.Pairwise.cons ?_ (ih htail)
      intro e he
      have := (insertByName_perm c ds).mem_iff.mp he
      rcases List.mem_cons.mp this with he1 | he2
      · subst he1; exact hdc
      · exact hhead e he2

theorem sortByName_pairwise (l : List DirTree) :
    (sortByName l).Pairwise nameLe := by
  induction l with
  | nil => simp [sortByName]
  | cons a t ih =>
    simp only [sortByName, List.foldr]
    exact insertByName_pairwise a _ ih

/-- C6: the locator records a directory holding the repository marker and
never recurses into it (first conjunct: the result at a marker directory
ignores the children entirely); at a marker-free directory whose
enumeration succeeds it visits exactly the non-dot, non-skip-listed
subdirectories, depth-first, siblings in the `sortByName` order -- a
lexical-by-name sorted permutation of the children (last two conjuncts);
an enumeration failure yields no repositories for that subtree; recursion
stops past the configured depth, while directories at exactly that depth
are still scanned but contribute none of their children. -/
theorem locator_spec (maxD : Nat) :
    (∀ (nm : String) (acc : Bool) (ch : List DirTree) (pa : List String)
        (d : Nat),
      findRepos maxD (.node nm true acc ch) pa d =
        if d > maxD then [] else [pa ++ [nm]]) ∧
    (∀ (nm : String) (acc : Bool) (ch : List DirTree) (pa : List String)
        (d : Nat),
      findRepos maxD (.node nm false acc ch) pa d =
        if d > maxD then []
        else if acc then
          (sortByName ch).flatMap (fun c =>
            if startsWithDot c.name then []
            else if c.name ∈ skipDirs then []
            else findRepos maxD c (pa ++ [nm]) (d + 1))
        else []) ∧
    (∀ (t : DirTree) (pa : List String),
      findRepos maxD t pa maxD =
        if t.hasGit then [pa ++ [t.name]] else []) ∧
    (∀ ch : List DirTree, (sortByName ch).Perm ch) ∧
    (∀ ch : List DirTree, (sortByName ch).Pairwise nameLe) := by
  have hgit : ∀ (nm : String) (acc : Bool) (ch : List DirTree)
      (pa : List String) (d : Nat),
      findRepos maxD (.node nm true acc ch) pa d =
        if d > maxD then [] else [pa ++ [nm]] := by
    intro nm acc ch pa d
    by_cases h : d > maxD
    · simp [findRepos, h]
    · simp [findRepos, h]
  have hwalk : ∀ (nm : String) (acc : Bool) (ch : List DirTree)
      (pa : List String) (d : Nat),
      findRepos maxD (.node nm false acc ch) pa d =
        if d > maxD then []
        else if acc then
          (sortByName ch).flatMap (fun c =>
            if startsWithDot c.name then []
            else if c.name ∈ skipDirs then []
            else findRepos maxD c (pa ++ [nm]) (d + 1))
        else [] := by
    intro nm acc ch pa d
    by_cases h : d > maxD
    · simp [findRepos, h]
    · by_cases ha : acc
      · simp only [findRepos, if_neg h, ha, if_true, Bool.false_eq_true,
          if_false]
        exact attach_flatMap (sortByName ch) (fun c =>
          if startsWithDot c.name then []
          else if c.name ∈ skipDirs then []
          else findRepos maxD c (pa ++ [nm]) (d + 1))
      · simp [findRepos, h, ha]
  refine ⟨hgit, hwalk, ?_, sortByName_perm, sortByName_pairwise⟩
  intro t pa
  cases t with
  | node nm git acc ch =>
    cases git
    · rw [hwalk]
      simp only [gt_iff_lt, Nat.lt_irrefl, if_false, DirTree.hasGit,
        Bool.false_eq_true]
      by_cases ha : acc
      · simp only [ha, if_true, if_false]
        rw [List.flatMap_eq_nil_iff]
        intro c hc
        split_ifs <;>
          first
          | rfl
          | exact findRepos_depth_gt maxD (maxD + 1) c _ (by omega)
      · simp [ha]
    · rw [hgit]
      simp [DirTree.hasGit, DirTree.name]

end GitPulse
